import Mathlib

/-!
Verification of the duck_ui5 trial-balance ETL pipeline.

This file embeds the pure core of `src/scripts/transform_trial_balances.py`
and `src/scripts/utils.py` (and, for the refinement claim, the duplicated
revision `src/transform_trial_balances.py`) as executable Lean definitions,
and proves the spec's testable properties about them.

Modelling conventions:
- Python `str` is Lean `String`; character-level work happens on `List Char`.
- Python floats are modelled as `ℚ`; a pandas null/NaN cell is `Option.none`.
- Python exceptions are modelled with `Except Unit` / `Except TError`.
- `str.lower` is modelled with `Char.toLower` (ASCII; the headers and
  keywords involved are ASCII).
- `int(s)` is modelled for ASCII strings: optional surrounding whitespace,
  optional sign, decimal digits with single underscores between digits.
-/

namespace DuckUI5

/-! ### Python string primitives -/

/-- An ASCII decimal digit (code points 48-57). -/
def isPyDigit (c : Char) : Bool := 48 ≤ c.toNat && c.toNat ≤ 57

/-- The numeric value of an ASCII decimal digit. -/
def digitVal (c : Char) : Nat := c.toNat - 48

def isPySpace (c : Char) : Bool :=
  c = ' ' || c = '\t' || c = '\n' || c = '\r' || c = '\x0b' || c = '\x0c'

/-- Strip leading and trailing Python whitespace, as `int()` does. -/
def pyStrip (cs : List Char) : List Char :=
  ((cs.dropWhile isPySpace).reverse.dropWhile isPySpace).reverse

/-- Accumulating digit scanner for `int()`: digits, with single underscores
allowed between digits. -/
def pyDigitsGo (acc : Nat) : List Char → Option Nat
  | [] => some acc
  | c :: rest =>
      if isPyDigit c then pyDigitsGo (10 * acc + digitVal c) rest
      else if c = '_' then
        match rest with
        | [] => none
        | c2 :: rest2 =>
            if isPyDigit c2 then pyDigitsGo (10 * acc + digitVal c2) rest2 else none
      else none

/-- Parse a nonempty digit run (with `_` separators); first char must be a digit. -/
def pyDigits : List Char → Option Nat
  | [] => none
  | c :: rest => if isPyDigit c then pyDigitsGo (digitVal c) rest else none

/-- The sign handling of `int()`, applied to the stripped character list. -/
def pyIntCore : List Char → Option Int
  | [] => none
  | c :: rest =>
      if c = '+' then (pyDigits rest).map (fun n => (n : Int))
      else if c = '-' then (pyDigits rest).map (fun n => -(n : Int))
      else (pyDigits (c :: rest)).map (fun n => (n : Int))

/-- Model of Python `int(s)` on ASCII strings: `none` models a raised
`ValueError`. -/
def pyInt (cs : List Char) : Option Int := pyIntCore (pyStrip cs)

/-- Python `s[-4:]`: the last four characters (the whole string if shorter). -/
def lastChars (n : Nat) (cs : List Char) : List Char := cs.drop (cs.length - n)

/-- Model of `str.lower` (ASCII range). -/
def lowerL (cs : List Char) : List Char := cs.map Char.toLower

/-- Model of `str.startswith`. -/
def startsWithL : List Char → List Char → Bool
  | _, [] => true
  | [], _ :: _ => false
  | x :: xs, y :: ys => x == y && startsWithL xs ys

/-- Decimal value of a list of digit characters (most significant first). -/
def digitsNatVal (cs : List Char) : Nat := cs.foldl (fun acc c => 10 * acc + digitVal c) 0

/-- Zero-pad the decimal representation of `n` to width `w`
(Python `f"{n:0wd}"` for nonnegative `n`). -/
def zeroPad (w : Nat) (n : Nat) : String :=
  ⟨List.replicate (w - (toString n).length) '0' ++ (toString n).toList⟩

/-! ### Dates

`PyDate` models `datetime.date`; `mkPyDate` models the constructor, which
raises (here: `none`) outside `datetime.MINYEAR = 1 ≤ year ≤ 9999 =
datetime.MAXYEAR` or for an invalid month/day. -/

structure PyDate where
  year : Int
  month : Nat
  day : Nat
deriving DecidableEq

/-- `calendar.isleap`. -/
def isleap (y : Int) : Bool := y % 4 == 0 && (y % 100 != 0 || y % 400 == 0)

/-- `calendar.mdays` (index 0 is a placeholder). -/
def mdaysList : List Nat := [0, 31, 28, 31, 30, 31, 30, 31, 31, 30, 31, 30, 31]

/-- `calendar.monthrange(year, month)[1]`: the number of days in the month. -/
def monthrangeDays (y : Int) (m : Nat) : Nat :=
  mdaysList.getD m 0 + (if m == 2 && isleap y then 1 else 0)

/-- Model of the `datetime.date` constructor. -/
def mkPyDate (y : Int) (m d : Nat) : Option PyDate :=
  if 1 ≤ y ∧ y ≤ 9999 ∧ 1 ≤ m ∧ m ≤ 12 ∧ 1 ≤ d ∧ d ≤ monthrangeDays y m then
    some ⟨y, m, d⟩
  else
    none

/-! ### Period column parser (src/scripts/transform_trial_balances.py:34-72) -/

/-- `MONTH_MAP`: Dutch month names to month numbers, in source order. -/
def MONTH_MAP : List (String × Nat) :=
  [("januari", 1), ("februari", 2), ("maart", 3), ("april", 4),
   ("mei", 5), ("juni", 6), ("juli", 7), ("augustus", 8),
   ("september", 9), ("oktober", 10), ("november", 11), ("december", 12)]

/-- The `for month_name, month_num in MONTH_MAP.items()` loop of
`parse_period_column`.  `Except.error` models a raised exception
(`int()` failing, or `date()` rejecting the year). -/
def monthLoop (cs : List Char) : List (String × Nat) → Except Unit (Option (String × PyDate))
  | [] => Except.ok none
  | (mname, mnum) :: rest =>
      if startsWithL (lowerL cs) mname.toList then
        match pyInt (lastChars 4 cs) with
        | none => Except.error ()
        | some year =>
            match mkPyDate year mnum (monthrangeDays year mnum) with
            | none => Except.error ()
            | some d => Except.ok (some (toString year ++ "-" ++ zeroPad 2 mnum, d))
      else monthLoop cs rest

/-- `parse_period_column`: maps a column header to `(JaarPeriode, LastDate)`,
`none` for a non-period column, or `Except.error` for a raised exception. -/
def parse_period_column (colName : String) : Except Unit (Option (String × PyDate)) :=
  let cs := colName.toList
  if startsWithL (lowerL cs) "openingsbalans".toList then
    match pyInt (lastChars 4 cs) with
    | none => Except.error ()
    | some year =>
        match mkPyDate year 1 1 with
        | none => Except.error ()
        | some d => Except.ok (some (toString year ++ "-00", d))
  else monthLoop cs MONTH_MAP

/-! ### Category classifier and display value
(src/scripts/transform_trial_balances.py:75-95) -/

/-- `get_category`. -/
def get_category (code1 : String) : Option String :=
  if code1 ∈ ["000", "010", "020", "030", "040", "050"] then some "Activa"
  else if code1 ∈ ["060", "065", "070", "080"] then some "Passiva"
  else if code1 ∈ ["500", "510"] then some "Gross Margin"
  else if code1 ∈ ["520", "530", "540", "550"] then some "Expenses"
  else none

/-- Python `str(x)` where `x` is a string or `None`
(a null `Code1` cell prints as `"None"`). -/
def pyStrOfOptStr : Option String → String
  | some s => s
  | none => "None"

/-- `calculate_display_value`, as a function of the row's `Code1` and `Value`
fields (`Value` is non-null at the call site, after `dropna`). -/
def calculate_display_value (code1 : Option String) (v : ℚ) : Option ℚ :=
  let category := get_category (pyStrOfOptStr code1)
  if category = some "Activa" then some v
  else if category = some "Passiva" ∨ category = some "Expenses" ∨
      category = some "Gross Margin" then some (v * (-1))
  else none

/-! ### Account code padding (src/scripts/utils.py:30-63) -/

/-- Python `str.zfill`: left-pad with `'0'` to `width`, keeping a leading
`'+'`/`'-'` at the front. -/
def zfill (s : String) (width : Nat) : String :=
  if width ≤ s.length then s
  else
    match s.toList with
    | c :: rest =>
        if c = '+' ∨ c = '-' then ⟨c :: (List.replicate (width - s.length) '0' ++ rest)⟩
        else ⟨List.replicate (width - s.length) '0' ++ s.toList⟩
    | [] => ⟨List.replicate width '0'⟩

/-- `pad_account_code`, elementwise: `.astype(str).str.zfill(4)` applied to one
already-stringified cell. -/
def pad_account_code (s : String) : String := zfill s 4

/-! ### The wide source table and the reshape
(src/scripts/transform_trial_balances.py:98-233)

A `WideRow` carries the six identity columns as typed fields and the sheet's
remaining cells positionally, aligned with `WideTable.headers` (the full
column-name list, as `df.columns`).  Only cells of recognized period columns
are ever read, mirroring `df.melt(id_vars, value_vars, ...)`. -/

structure WideRow where
  codeGrootboekrekening : String
  naamAdministratie : String
  codeRelatiekostenplaats : Option Int
  naamRelatiekostenplaats : Option String
  codeDimensietype : String
  codeRapportagestructuurgroep1 : Option Int
  cells : List (Option ℚ)
deriving DecidableEq

structure WideTable where
  headers : List String
  rows : List WideRow
deriving DecidableEq

/-- A row of the melted (long) table, before `dropna`. -/
structure MeltedRow where
  codeGrootboekrekening : String
  naamAdministratie : String
  codeRelatiekostenplaats : Option Int
  naamRelatiekostenplaats : Option String
  code0 : String
  code1 : Option String
  value : Option ℚ
  jaarPeriode : String
  lastDate : PyDate
deriving DecidableEq

/-- A fact row after `dropna(subset=["Value"])` and the `DisplayValue` step. -/
structure FactRow where
  codeGrootboekrekening : String
  naamAdministratie : String
  codeRelatiekostenplaats : Option Int
  naamRelatiekostenplaats : Option String
  code0 : String
  code1 : Option String
  value : ℚ
  jaarPeriode : String
  lastDate : PyDate
  displayValue : Option ℚ
deriving DecidableEq

/-- Python `f"{int(x):03d}"`: zero-pad to width 3, sign kept in front. -/
def format03d (i : Int) : String :=
  if i < 0 then
    ⟨'-' :: (List.replicate (2 - (toString i.natAbs).length) '0' ++ (toString i.natAbs).toList)⟩
  else zeroPad 3 i.toNat

/-- The period-column discovery loop (lines 140-146): parse every header in
order, collecting `(header, JaarPeriode, LastDate)` for period columns; a
parse exception propagates. -/
def collectPeriods : List String → Except Unit (List (String × String × PyDate))
  | [] => Except.ok []
  | h :: rest => do
      let p ← parse_period_column h
      let tail ← collectPeriods rest
      match p with
      | some (jp, ld) => Except.ok ((h, jp, ld) :: tail)
      | none => Except.ok tail

/-- The cell of row `r` in the column named `h`. -/
def cellAt (t : WideTable) (r : WideRow) (h : String) : Option ℚ :=
  r.cells.getD (t.headers.indexOf h) none

/-- One melted row: wide row `r` at period column `pc`, with the
`JaarPeriode`/`LastDate` mapping, the `Code0`/`Code1` rename and the `Code1`
three-digit formatting (lines 174-189). -/
def meltRow (t : WideTable) (pc : String × String × PyDate) (r : WideRow) : MeltedRow :=
  { codeGrootboekrekening := r.codeGrootboekrekening
    naamAdministratie := r.naamAdministratie
    codeRelatiekostenplaats := r.codeRelatiekostenplaats
    naamRelatiekostenplaats := r.naamRelatiekostenplaats
    code0 := r.codeDimensietype
    code1 := r.codeRapportagestructuurgroep1.map format03d
    value := cellAt t r pc.1
    jaarPeriode := pc.2.1
    lastDate := pc.2.2 }

/-- `df.melt(id_vars, value_vars, var_name="Period", value_name="Value")`
(lines 163-172): one long row per (period column × wide row). -/
def meltTable (t : WideTable) (pcs : List (String × String × PyDate)) : List MeltedRow :=
  pcs.flatMap (fun pc => t.rows.map (meltRow t pc))

/-- `dropna(subset=["Value"])` followed by the `DisplayValue` column. -/
def withDisplay (m : MeltedRow) : FactRow :=
  { codeGrootboekrekening := m.codeGrootboekrekening
    naamAdministratie := m.naamAdministratie
    codeRelatiekostenplaats := m.codeRelatiekostenplaats
    naamRelatiekostenplaats := m.naamRelatiekostenplaats
    code0 := m.code0
    code1 := m.code1
    value := m.value.getD 0
    jaarPeriode := m.jaarPeriode
    lastDate := m.lastDate
    displayValue :=
      match m.value with
      | some v => calculate_display_value m.code1 v
      | none => none }

/-- The fact table: melted rows with a non-null `Value`, with `DisplayValue`
(lines 192-197). -/
def factTable (t : WideTable) (pcs : List (String × String × PyDate)) : List FactRow :=
  ((meltTable t pcs).filter (fun m => m.value.isSome)).map withDisplay

/-! ### Profit synthesis (src/scripts/transform_trial_balances.py:199-227) -/

/-- `fact_df[fact_df["Code0"] == "BAS"]`. -/
def balanceRows (facts : List FactRow) : List FactRow :=
  facts.filter (fun r => r.code0 == "BAS")

/-- The groupby key `(JaarPeriode, LastDate, NaamAdministratie)`. -/
def profitKey (r : FactRow) : String × PyDate × String :=
  (r.jaarPeriode, r.lastDate, r.naamAdministratie)

/-- The distinct groupby keys.  (pandas sorts group keys; the group *order* is
abstracted here, the set of groups and each group's sum are exact.) -/
def profitKeys (facts : List FactRow) : List (String × PyDate × String) :=
  ((balanceRows facts).map profitKey).dedup

/-- The per-group `Value` sum (the `Profit` column). -/
def groupSum (facts : List FactRow) (k : String × PyDate × String) : ℚ :=
  (((balanceRows facts).filter (fun r => decide (profitKey r = k))).map
    (fun r => r.value)).sum

/-- One synthetic profit row, for group key `k` (lines 211-222). -/
def profitRow (facts : List FactRow) (k : String × PyDate × String) : FactRow :=
  { codeGrootboekrekening := "9999"
    naamAdministratie := k.2.2
    codeRelatiekostenplaats := none
    naamRelatiekostenplaats := none
    code0 := "BAS"
    code1 := some "060"
    value := groupSum facts k * (-1)
    jaarPeriode := k.1
    lastDate := k.2.1
    displayValue := some (groupSum facts k) }

/-- The synthetic profit rows, one per group. -/
def profit_rows (facts : List FactRow) : List FactRow :=
  (profitKeys facts).map (profitRow facts)

/-- `pd.concat([fact_df, profit_rows])`. -/
def combinedRows (facts : List FactRow) : List FactRow := facts ++ profit_rows facts

/-! ### The end-to-end transform (pure part) -/

/-- A final row: helper columns `Code0`/`Code1` dropped, account code padded
(lines 230-233). -/
structure FinalRow where
  codeGrootboekrekening : String
  naamAdministratie : String
  codeRelatiekostenplaats : Option Int
  naamRelatiekostenplaats : Option String
  value : ℚ
  jaarPeriode : String
  lastDate : PyDate
  displayValue : Option ℚ
deriving DecidableEq

def toFinalRow (r : FactRow) : FinalRow :=
  { codeGrootboekrekening := pad_account_code r.codeGrootboekrekening
    naamAdministratie := r.naamAdministratie
    codeRelatiekostenplaats := r.codeRelatiekostenplaats
    naamRelatiekostenplaats := r.naamRelatiekostenplaats
    value := r.value
    jaarPeriode := r.jaarPeriode
    lastDate := r.lastDate
    displayValue := r.displayValue }

inductive TError where
  | periodParse : TError
  | missingColumns : List String → TError
deriving DecidableEq

/-- The six declared identity columns (lines 149-156). -/
def idColumns : List String :=
  ["CodeGrootboekrekening", "NaamAdministratie", "CodeRelatiekostenplaats",
   "NaamRelatiekostenplaats", "CodeDimensietype", "CodeRapportagestructuurgroep1"]

/-- `transform_trial_balances`, up to the final in-memory table.  Reading the
workbook, schema application warnings and the database write are I/O and sit
outside the model; the `ValueError` for missing identity columns (lines
158-161) and period-parse exceptions are modelled in `TError`. -/
def transform_trial_balances (t : WideTable) : Except TError (List FinalRow) := do
  let pcs ← (collectPeriods t.headers).mapError (fun _ => TError.periodParse)
  let missing := idColumns.filter (fun c => !(t.headers.contains c))
  if missing ≠ [] then
    throw (TError.missingColumns missing)
  else
    Except.ok ((combinedRows (factTable t pcs)).map toFinalRow)

/-- `main` (lines 268-279): any exception is caught, printed, and turned into
exit status 1. -/
def mainExitCode (t : WideTable) : Nat :=
  match transform_trial_balances t with
  | Except.ok _ => 0
  | Except.error _ => 1

/-! ### Spec-side definitions (for stating claims against) -/

/-- Modelled from the spec: a Gregorian leap year
("handles 28/29/30/31-day months and leap years"). -/
def specIsLeapYear (y : Int) : Bool := decide ((4 ∣ y ∧ ¬(100 ∣ y)) ∨ 400 ∣ y)

/-- Modelled from the spec: the number of days of the last calendar day of
`(year, month)` under standard Gregorian rules. -/
def gregorianLastDay (y : Int) (m : Nat) : Nat :=
  if m = 2 then (if specIsLeapYear y then 29 else 28)
  else if m = 4 ∨ m = 6 ∨ m = 9 ∨ m = 11 then 30
  else 31

/-! ### The earlier revision of the transform script
(src/transform_trial_balances.py:13-63)

That revision defines `MONTH_MAP`, `parse_period_column`, `get_category` and
`calculate_display_value` with its own (textually identical) code; they are
embedded again here, verbatim, for the refinement claim. -/

namespace Legacy

def MONTH_MAP : List (String × Nat) :=
  [("januari", 1), ("februari", 2), ("maart", 3), ("april", 4),
   ("mei", 5), ("juni", 6), ("juli", 7), ("augustus", 8),
   ("september", 9), ("oktober", 10), ("november", 11), ("december", 12)]

def monthLoop (cs : List Char) : List (String × Nat) → Except Unit (Option (String × PyDate))
  | [] => Except.ok none
  | (mname, mnum) :: rest =>
      if startsWithL (lowerL cs) mname.toList then
        match pyInt (lastChars 4 cs) with
        | none => Except.error ()
        | some year =>
            match mkPyDate year mnum (monthrangeDays year mnum) with
            | none => Except.error ()
            | some d => Except.ok (some (toString year ++ "-" ++ zeroPad 2 mnum, d))
      else monthLoop cs rest

def parse_period_column (colName : String) : Except Unit (Option (String × PyDate)) :=
  let cs := colName.toList
  if startsWithL (lowerL cs) "openingsbalans".toList then
    match pyInt (lastChars 4 cs) with
    | none => Except.error ()
    | some year =>
        match mkPyDate year 1 1 with
        | none => Except.error ()
        | some d => Except.ok (some (toString year ++ "-00", d))
  else monthLoop cs MONTH_MAP

def get_category (code1 : String) : Option String :=
  if code1 ∈ ["000", "010", "020", "030", "040", "050"] then some "Activa"
  else if code1 ∈ ["060", "065", "070", "080"] then some "Passiva"
  else if code1 ∈ ["500", "510"] then some "Gross Margin"
  else if code1 ∈ ["520", "530", "540", "550"] then some "Expenses"
  else none

def calculate_display_value (code1 : Option String) (v : ℚ) : Option ℚ :=
  let category := get_category (pyStrOfOptStr code1)
  if category = some "Activa" then some v
  else if category = some "Passiva" ∨ category = some "Expenses" ∨
      category = some "Gross Margin" then some (v * (-1))
  else none

end Legacy

/-! ### Schema coercion (src/scripts/utils.py:66-151)

`apply_schema` works on an untyped table: a list of named columns of cells.
A cell is a float (`num`), a nullable integer (`intv`), a string (`strv`), a
timestamp (`datetime`, nanoseconds since the epoch), a boolean, or null
(NaN/None/NaT are conflated as `null`).  The four dtype branches that the
source spells out are modelled; its final generic `astype(dtype)` fallback
branch ("bool, category, etc.") is outside the model.  A conversion that
pandas would raise on is a column-level failure, caught by the source's
`try/except`, which leaves the column unchanged (a printed warning). -/

inductive CellValue where
  | null : CellValue
  | num : ℚ → CellValue
  | intv : Int → CellValue
  | strv : String → CellValue
  | datetime : Int → CellValue
  | boolv : Bool → CellValue
deriving DecidableEq

/-- The declared dtype strings: `"str"`; `"float64"`/`"Float64"` (one branch in
the source); `"Int64"`/`"int64"` (one branch); `"datetime64[ns]"`. -/
inductive DType where
  | dtStr : DType
  | dtFloat : DType
  | dtInt : DType
  | dtDatetime : DType
deriving DecidableEq

def isDatetimeCell : CellValue → Bool
  | .datetime _ => true
  | _ => false

def isBoolCell : CellValue → Bool
  | .boolv _ => true
  | _ => false

/-- A decimal-fraction parser standing in for the numeric parse of
`pd.to_numeric` on strings (sign, digits, optional fractional part);
unparseable strings coerce to null. -/
def parseUnsignedFloat (cs : List Char) : Option ℚ :=
  let intPart := cs.takeWhile isPyDigit
  match cs.dropWhile isPyDigit with
  | [] => if intPart.isEmpty then none else some (digitsNatVal intPart)
  | '.' :: frac =>
      if frac.all isPyDigit ∧ ¬(intPart.isEmpty ∧ frac.isEmpty) then
        some ((digitsNatVal intPart : ℚ) + (digitsNatVal frac : ℚ) / ((10 : ℚ) ^ frac.length))
      else none
  | _ => none

def pyParseFloat (s : String) : Option ℚ :=
  match pyStrip s.toList with
  | '+' :: rest => parseUnsignedFloat rest
  | '-' :: rest => (parseUnsignedFloat rest).map Neg.neg
  | rest => parseUnsignedFloat rest

/-- Printable form of a float cell (Python always prints a fractional part;
the non-integral case is a simplified rendering — no claim depends on it). -/
def ratStr (q : ℚ) : String :=
  if q.den = 1 then toString q.num ++ ".0" else toString q

/-- `astype("str")` on one cell: Python `str()` of the cell's value. -/
def strCell : CellValue → CellValue
  | .null => .strv "nan"
  | .num q => .strv (ratStr q)
  | .intv i => .strv (toString i)
  | .strv s => .strv s
  | .datetime t => .strv (toString t)
  | .boolv b => .strv (if b then "True" else "False")

/-- One cell under `pd.to_numeric(-, errors="coerce")` (non-datetime input). -/
def coerceNumericCell : CellValue → CellValue
  | .null => .null
  | .num q => .num q
  | .intv i => .intv i
  | .strv s =>
      match pyParseFloat s with
      | some q => .num q
      | none => .null
  | .boolv b => .intv (if b then 1 else 0)
  | .datetime t => .datetime t

/-- `pd.to_numeric(col, errors="coerce")`: raises (column-level `none`) on a
datetime column, otherwise coerces cellwise with invalid values to null. -/
def toNumericCol (col : List CellValue) : Option (List CellValue) :=
  if col.any isDatetimeCell then none else some (col.map coerceNumericCell)

/-- `.astype("Int64")` on one to_numeric output cell: raises on a float with a
fractional part. -/
def toInt64Cell : CellValue → Option CellValue
  | .null => some .null
  | .intv i => some (.intv i)
  | .num q => if q.den = 1 then some (.intv q.num) else none
  | _ => none

/-- Days since 1970-01-01 of a (validated) Gregorian date. -/
def daysFromCivil (y : Int) (m d : Nat) : Int :=
  let yr : Int := if m ≤ 2 then y - 1 else y
  let era : Int := (if 0 ≤ yr then yr else yr - 399) / 400
  let yoe : Int := yr - era * 400
  let mp : Int := ((m : Int) + 9) % 12
  let doy : Int := (153 * mp + 2) / 5 + (d : Int) - 1
  let doe : Int := yoe * 365 + yoe / 4 - yoe / 100 + doy
  era * 146097 + doe - 719468

def nsPerDay : Int := 86400000000000

/-- ISO `YYYY-MM-DD` parse standing in for the string parse of
`pd.to_datetime`; unparseable strings coerce to NaT (null). -/
def parseIsoDate (s : String) : Option Int :=
  match s.toList with
  | [y1, y2, y3, y4, '-', m1, m2, '-', d1, d2] =>
      if ([y1, y2, y3, y4, m1, m2, d1, d2].all isPyDigit) then
        let y := digitsNatVal [y1, y2, y3, y4]
        let m := digitsNatVal [m1, m2]
        let d := digitsNatVal [d1, d2]
        match mkPyDate y m d with
        | some _ => some (daysFromCivil y m d * nsPerDay)
        | none => none
      else none
  | _ => none

/-- One cell under `pd.to_datetime(-, errors="coerce")` (non-bool input);
numbers are nanoseconds since the epoch. -/
def toDatetimeCell : CellValue → CellValue
  | .null => .null
  | .datetime t => .datetime t
  | .num q => .datetime q.floor
  | .intv i => .datetime i
  | .strv s =>
      match parseIsoDate s with
      | some t => .datetime t
      | none => .null
  | .boolv b => .boolv b

/-- `pd.to_datetime(col, errors="coerce")`: raises on a bool column. -/
def toDatetimeCol (col : List CellValue) : Option (List CellValue) :=
  if col.any isBoolCell then none else some (col.map toDatetimeCell)

/-- Apply a failable cell conversion to a whole column; any cell failure
fails the column (the raised dtype exception). -/
def mapCells (f : CellValue → Option CellValue) : List CellValue → Option (List CellValue)
  | [] => some []
  | c :: rest =>
      match f c, mapCells f rest with
      | some c2, some rest2 => some (c2 :: rest2)
      | _, _ => none

/-- One column under its declared dtype; a raised conversion leaves the
column unchanged (the source's `except` branch). -/
def coerceCol : DType → List CellValue → List CellValue
  | .dtStr, col => col.map strCell
  | .dtFloat, col => (toNumericCol col).getD col
  | .dtInt, col => ((toNumericCol col).bind (mapCells toInt64Cell)).getD col
  | .dtDatetime, col => (toDatetimeCol col).getD col

/-- First-match lookup in the schema; a Python dict's keys are unique, so this
models iterating `schema.items()` exactly. -/
def schemaLookup (n : String) : List (String × DType) → Option DType
  | [] => none
  | (m, dt) :: rest => if m = n then some dt else schemaLookup n rest

/-- `apply_schema`: coerce every declared column that is present; schema
entries without a matching column only print a warning. -/
def apply_schema (tbl : List (String × List CellValue))
    (schema : List (String × DType)) : List (String × List CellValue) :=
  tbl.map (fun col =>
    match schemaLookup col.1 schema with
    | some dt => (col.1, coerceCol dt col.2)
    | none => col)

/-- `endsWithL cs ts`: `ts` is a suffix of `cs`. -/
def endsWithL (cs ts : List Char) : Bool := startsWithL cs.reverse ts.reverse

/-- Whether parsing a header returns without raising (used to state the
error-behaviour claims decidably). -/
def parseOk (h : String) : Bool :=
  match parse_period_column h with
  | Except.ok _ => true
  | Except.error _ => false

/-! ### Observations on the produced tables (used to state claims) -/

/-- The total `DisplayValue` of one (entity, period) group of the final table
(pandas `sum` skips nulls). -/
def displaySum (rows : List FinalRow) (e p : String) : ℚ :=
  ((rows.filter (fun r => r.naamAdministratie == e && r.jaarPeriode == p)).filterMap
    (fun r => r.displayValue)).sum

/-- The (entity, period) `DisplayValue` total of a full pipeline run
(0 if the run failed). -/
def pipelineDisplaySum (t : WideTable) (e p : String) : ℚ :=
  match transform_trial_balances t with
  | Except.ok rows => displaySum rows e p
  | Except.error _ => 0

/-- The total raw `Value` of the balance-sheet rows (`Code0 = "BAS"`) of one
(entity, period) group of the combined fact table. -/
def balanceValueSum (rows : List FactRow) (e p : String) : ℚ :=
  ((rows.filter (fun r =>
    r.code0 == "BAS" && r.naamAdministratie == e && r.jaarPeriode == p)).map
      (fun r => r.value)).sum

/-- The sum of raw values of the balance-sheet fact rows of one
(entity, period) group. -/
def epBalanceSum (facts : List FactRow) (e p : String) : ℚ :=
  (((balanceRows facts).filter (fun r =>
    r.naamAdministratie == e && r.jaarPeriode == p)).map (fun r => r.value)).sum

/-! ### Concrete fixtures (spec §8.7 scenario and variants) -/

def exRow : WideRow :=
  { codeGrootboekrekening := "100", naamAdministratie := "A",
    codeRelatiekostenplaats := none, naamRelatiekostenplaats := none,
    codeDimensietype := "BAS", codeRapportagestructuurgroep1 := some 10,
    cells := [none, none, none, none, none, none, some 500, some 600] }

def exTable : WideTable :=
  { headers := ["CodeGrootboekrekening", "NaamAdministratie", "CodeRelatiekostenplaats",
                "NaamRelatiekostenplaats", "CodeDimensietype", "CodeRapportagestructuurgroep1",
                "Openingsbalans2025", "januari2025"],
    rows := [exRow] }

def exPcs : List (String × String × PyDate) :=
  [("Openingsbalans2025", "2025-00", ⟨2025, 1, 1⟩),
   ("januari2025", "2025-01", ⟨2025, 1, 31⟩)]

/-- A source table lacking every identity column. -/
def exTableMissingIds : WideTable :=
  { headers := ["januari2025"], rows := [] }

/-- A small fact table for exercising the profit synthesizer directly. -/
def exFacts : List FactRow :=
  [{ codeGrootboekrekening := "100", naamAdministratie := "A",
     codeRelatiekostenplaats := none, naamRelatiekostenplaats := none,
     code0 := "BAS", code1 := some "000", value := 100,
     jaarPeriode := "2025-01", lastDate := ⟨2025, 1, 31⟩, displayValue := some 100 },
   { codeGrootboekrekening := "200", naamAdministratie := "A",
     codeRelatiekostenplaats := none, naamRelatiekostenplaats := none,
     code0 := "BAS", code1 := some "060", value := -30,
     jaarPeriode := "2025-01", lastDate := ⟨2025, 1, 31⟩, displayValue := some 30 },
   { codeGrootboekrekening := "800", naamAdministratie := "A",
     codeRelatiekostenplaats := none, naamRelatiekostenplaats := none,
     code0 := "WIV", code1 := some "520", value := -70,
     jaarPeriode := "2025-01", lastDate := ⟨2025, 1, 31⟩, displayValue := some 70 }]

/-! ## Helper lemmas -/

theorem startsWithL_append (xs ys : List Char) : startsWithL (xs ++ ys) xs = true := by
  induction xs with
  | nil => cases ys <;> rfl
  | cons x xs ih => simp [startsWithL, ih]

theorem startsWithL_get (xs p : List Char) (h : startsWithL xs p = true) :
    ∀ i, i < p.length → xs.get? i = p.get? i := by
  induction p generalizing xs with
  | nil => intro i hi; simp at hi
  | cons c cs ih =>
      cases xs with
      | nil => simp [startsWithL] at h
      | cons x xs =>
          simp only [startsWithL, Bool.and_eq_true, beq_iff_eq] at h
          intro i hi
          cases i with
          | zero => simp [h.1]
          | succ j =>
              simp only [List.get?]
              exact ih xs h.2 j (by simpa using hi)

/-- If `xs` starts with `p`, and `p` and `q` visibly differ at index `i`, then
`xs` does not start with `q`. -/
theorem startsWith_exclusive (xs p q : List Char) (i : Nat)
    (hip : i < p.length) (hiq : i < q.length) (hne : p.get? i ≠ q.get? i)
    (hp : startsWithL xs p = true) : startsWithL xs q = false := by
  by_contra hq
  rw [Bool.not_eq_false] at hq
  exact hne ((startsWithL_get xs p hp i hip).symm.trans (startsWithL_get xs q hq i hiq))

/-! ## Claim C7: account-code padding -/

/-- C7 counterexample: for the string `"-5"` the normalizer returns `"-005"`
(Python `zfill` keeps the sign in front), which is not `"-5"` left-padded
with zeros (`"00-5"`) and does not end with `"-5"`. -/
theorem claim_C7_counterexample :
    pad_account_code "-5" = "-005" ∧ ("-005" : String) ≠ "00-5" ∧
    endsWithL ("-005").toList ("-5").toList = false := by
  refine ⟨by decide, by decide, by decide⟩

/-- C7 (amended): for every string `s` of length ≥ 4 the normalizer returns
`s` unchanged; for shorter `s` it returns a string of length exactly 4, which
is `s` left-padded with `'0'` (and therefore ends with `s`) whenever `s` does
not start with `'+'` or `'-'`; if `s` starts with a sign, the sign stays in
front and the zeros are inserted after it. -/
theorem claim_C7_pad (s : String) :
    (4 ≤ s.length → pad_account_code s = s) ∧
    (s.length < 4 → (pad_account_code s).length = 4) ∧
    (s.length < 4 → s.toList.head? ≠ some '+' → s.toList.head? ≠ some '-' →
      pad_account_code s = ⟨List.replicate (4 - s.length) '0' ++ s.toList⟩ ∧
      endsWithL (pad_account_code s).toList s.toList = true) ∧
    (∀ c cs, s.toList = c :: cs → (c = '+' ∨ c = '-') → s.length < 4 →
      pad_account_code s = ⟨c :: (List.replicate (4 - s.length) '0' ++ cs)⟩) := by
  obtain ⟨data⟩ := s
  have hlen : String.length ⟨data⟩ = data.length := rfl
  have htl : String.toList ⟨data⟩ = data := rfl
  refine ⟨fun h4 => ?_, fun hlt => ?_, fun hlt hp hm => ?_, fun c cs hdata hsign hlt => ?_⟩
  · unfold pad_account_code zfill
    rw [if_pos (by omega)]
  · rw [hlen] at hlt
    unfold pad_account_code zfill
    rw [if_neg (by omega)]
    rw [htl]
    cases data with
    | nil => rfl
    | cons c cs =>
        show (if c = '+' ∨ c = '-' then
                (⟨c :: (List.replicate (4 - (⟨c :: cs⟩ : String).length) '0' ++ cs)⟩ : String)
              else ⟨List.replicate (4 - (⟨c :: cs⟩ : String).length) '0' ++ (c :: cs)⟩).length = 4
        simp only [List.length_cons] at hlt
        by_cases hsign : c = '+' ∨ c = '-'
        · rw [if_pos hsign]
          show (c :: (List.replicate (4 - (c :: cs).length) '0' ++ cs)).length = 4
          simp only [List.length_cons, List.length_append, List.length_replicate]
          omega
        · rw [if_neg hsign]
          show (List.replicate (4 - (c :: cs).length) '0' ++ c :: cs).length = 4
          simp only [List.length_cons, List.length_append, List.length_replicate]
          omega
  · rw [hlen] at hlt
    rw [htl] at hp hm
    have hmain : pad_account_code ⟨data⟩ = ⟨List.replicate (4 - data.length) '0' ++ data⟩ := by
      unfold pad_account_code zfill
      rw [if_neg (by omega)]
      rw [htl]
      cases data with
      | nil => rfl
      | cons c cs =>
          show (if c = '+' ∨ c = '-' then
                  (⟨c :: (List.replicate (4 - (⟨c :: cs⟩ : String).length) '0' ++ cs)⟩ : String)
                else ⟨List.replicate (4 - (⟨c :: cs⟩ : String).length) '0' ++ (c :: cs)⟩)
              = ⟨List.replicate (4 - (c :: cs).length) '0' ++ c :: cs⟩
          have hsign : ¬(c = '+' ∨ c = '-') := by
            rintro (rfl | rfl)
            · exact hp rfl
            · exact hm rfl
          rw [if_neg hsign]
          rfl
    refine ⟨hmain, ?_⟩
    rw [hmain, htl]
    show endsWithL (List.replicate (4 - data.length) '0' ++ data) data = true
    unfold endsWithL
    rw [List.reverse_append]
    exact startsWithL_append data.reverse (List.replicate (4 - data.length) '0').reverse
  · rw [hlen] at hlt
    rw [htl] at hdata
    subst hdata
    unfold pad_account_code zfill
    rw [if_neg (by omega)]
    rw [htl]
    show (if c = '+' ∨ c = '-' then
            (⟨c :: (List.replicate (4 - (⟨c :: cs⟩ : String).length) '0' ++ cs)⟩ : String)
          else ⟨List.replicate (4 - (⟨c :: cs⟩ : String).length) '0' ++ (c :: cs)⟩)
        = ⟨c :: (List.replicate (4 - (⟨c :: cs⟩ : String).length) '0' ++ cs)⟩
    rw [if_pos hsign]

/-- C7 witness: concrete instances of the amended padding property. -/
theorem claim_C7_witness :
    pad_account_code "10" = "0010" ∧ pad_account_code "12345" = "12345" := by
  constructor
  · have h := ((claim_C7_pad "10").2.2.1 (by decide) (by decide) (by decide)).1
    rw [h]; rfl
  · exact (claim_C7_pad "12345").1 (by decide)

/-! ## Claim C10: the two script revisions agree -/

theorem legacy_monthLoop_eq (cs : List Char) :
    ∀ ml, Legacy.monthLoop cs ml = monthLoop cs ml
  | [] => rfl
  | (m, n) :: rest => by
      unfold Legacy.monthLoop monthLoop
      rw [legacy_monthLoop_eq cs rest]

/-- C10: the core functions of `src/transform_trial_balances.py` and
`src/scripts/transform_trial_balances.py` are extensionally equal: on every
input, `parse_period_column`, `get_category` and `calculate_display_value`
of the two revisions return the same result. -/
theorem claim_C10_revisions_agree :
    (∀ s : String, Legacy.parse_period_column s = parse_period_column s) ∧
    (∀ c : String, Legacy.get_category c = get_category c) ∧
    (∀ (c : Option String) (v : ℚ),
      Legacy.calculate_display_value c v = calculate_display_value c v) := by
  refine ⟨fun s => ?_, fun c => rfl, fun c v => rfl⟩
  unfold Legacy.parse_period_column parse_period_column
  simp only [legacy_monthLoop_eq]
  rfl

/-! ## Claim C5: display value vs. category -/

/-- The category classifier returns one of the four fixed names or `none`. -/
theorem get_category_cases (c : String) :
    get_category c = none ∨ get_category c = some "Activa" ∨
    get_category c = some "Passiva" ∨ get_category c = some "Gross Margin" ∨
    get_category c = some "Expenses" := by
  unfold get_category
  split_ifs <;> simp

/-- C5: for every fact row the display value is null iff the category of its
reporting-group code is `None`; for `Activa` the display value equals the raw
value; for the other three categories it is the negated raw value; and rows
with a null display value are still kept in the fact table (the pipeline only
drops null `Value` cells, never rows by category). -/
theorem claim_C5_display_value :
    (∀ (code1 : Option String) (v : ℚ),
      (calculate_display_value code1 v = none ↔
        get_category (pyStrOfOptStr code1) = none) ∧
      (get_category (pyStrOfOptStr code1) = some "Activa" →
        calculate_display_value code1 v = some v) ∧
      (∀ cat, get_category (pyStrOfOptStr code1) = some cat → cat ≠ "Activa" →
        calculate_display_value code1 v = some (v * (-1)))) ∧
    (∀ (t : WideTable) (pcs : List (String × String × PyDate)) (m : MeltedRow),
      m ∈ meltTable t pcs → m.value.isSome = true →
      withDisplay m ∈ factTable t pcs) := by
  constructor
  · intro code1 v
    rcases get_category_cases (pyStrOfOptStr code1) with h | h | h | h | h
    · refine ⟨by simp [calculate_display_value, h], fun hA => ?_, fun cat hcat hne => ?_⟩
      · rw [h] at hA; simp at hA
      · rw [h] at hcat; simp at hcat
    · refine ⟨by simp [calculate_display_value, h], fun hA => ?_, fun cat hcat hne => ?_⟩
      · simp [calculate_display_value, h]
      · rw [h] at hcat
        injection hcat with hc
        exact absurd hc.symm hne
    · refine ⟨by simp [calculate_display_value, h], fun hA => ?_, fun cat hcat hne => ?_⟩
      · rw [h] at hA; simp at hA
      · simp [calculate_display_value, h]
    · refine ⟨by simp [calculate_display_value, h], fun hA => ?_, fun cat hcat hne => ?_⟩
      · rw [h] at hA; simp at hA
      · simp [calculate_display_value, h]
    · refine ⟨by simp [calculate_display_value, h], fun hA => ?_, fun cat hcat hne => ?_⟩
      · rw [h] at hA; simp at hA
      · simp [calculate_display_value, h]
  · intro t pcs m hm hv
    unfold factTable
    exact List.mem_map_of_mem _ (List.mem_filter.mpr ⟨hm, hv⟩)

/-- C5 witness: concrete instances — an `Activa` code keeps the raw value, a
`Passiva` code negates it, an unclassified code yields a null display value. -/
theorem claim_C5_witness :
    calculate_display_value (some "000") (5 : ℚ) = some 5 ∧
    calculate_display_value (some "060") (5 : ℚ) = some (5 * (-1)) ∧
    calculate_display_value (some "999") (5 : ℚ) = none := by
  refine ⟨(claim_C5_display_value.1 (some "000") 5).2.1 (by decide),
    (claim_C5_display_value.1 (some "060") 5).2.2 "Passiva" (by decide) (by decide),
    (claim_C5_display_value.1 (some "999") 5).1.mpr (by decide)⟩

/-! ## Claim C6: reshape row-count invariant -/

theorem melt_length (t : WideTable) (pcs : List (String × String × PyDate)) :
    (meltTable t pcs).length = t.rows.length * pcs.length := by
  unfold meltTable
  induction pcs with
  | nil => simp
  | cons pc rest ih =>
      simp only [List.flatMap_cons, List.length_append, List.length_map,
        List.length_cons] at *
      rw [ih]
      ring

/-- C6: the long fact table after unpivoting and `dropna` has at most
(wide rows) × (recognized period columns) rows, with equality iff no cell of
the unpivoted region is null. -/
theorem claim_C6_reshape_count (t : WideTable) (pcs : List (String × String × PyDate))
    (_hp : collectPeriods t.headers = Except.ok pcs) :
    (factTable t pcs).length ≤ t.rows.length * pcs.length ∧
    ((factTable t pcs).length = t.rows.length * pcs.length ↔
      ∀ r ∈ t.rows, ∀ pc ∈ pcs, cellAt t r pc.1 ≠ none) := by
  have hfl : (factTable t pcs).length =
      List.countP (fun m => m.value.isSome) (meltTable t pcs) := by
    unfold factTable
    rw [List.length_map, ← List.countP_eq_length_filter]
  have hml := melt_length t pcs
  constructor
  · rw [hfl, ← hml]
    exact List.countP_le_length _
  · rw [hfl, ← hml, List.countP_eq_length]
    constructor
    · intro hall r hr pc hpc hnone
      have hmem : meltRow t pc r ∈ meltTable t pcs := by
        unfold meltTable
        exact List.mem_flatMap.mpr ⟨pc, hpc, List.mem_map_of_mem _ hr⟩
      have := hall (meltRow t pc r) hmem
      rw [show (meltRow t pc r).value = cellAt t r pc.1 from rfl, hnone] at this
      simp at this
    · intro hall m hm
      unfold meltTable at hm
      obtain ⟨pc, hpc, hm2⟩ := List.mem_flatMap.mp hm
      obtain ⟨r, hr, rfl⟩ := List.mem_map.mp hm2
      have hne := hall r hr pc hpc
      show (cellAt t r pc.1).isSome = true
      cases hc : cellAt t r pc.1 with
      | none => exact absurd hc hne
      | some v => rfl

/-- C6 witness: the invariant at the spec's §8.7 example table (two period
columns, one row, no nulls). -/
theorem claim_C6_witness :
    (factTable exTable exPcs).length ≤ exTable.rows.length * exPcs.length ∧
    ((factTable exTable exPcs).length = exTable.rows.length * exPcs.length ↔
      ∀ r ∈ exTable.rows, ∀ pc ∈ exPcs, cellAt exTable r pc.1 ≠ none) :=
  claim_C6_reshape_count exTable exPcs (by rfl)

/-! ## Claim C9: missing identity columns halt the pipeline -/

theorem collectPeriods_ok_of_parseOk (hs : List String)
    (hparse : ∀ h ∈ hs, parseOk h = true) :
    ∃ pcs, collectPeriods hs = Except.ok pcs := by
  induction hs with
  | nil => exact ⟨[], rfl⟩
  | cons h rest ih =>
      have hh := hparse h (List.mem_cons_self h rest)
      unfold parseOk at hh
      obtain ⟨pcs, hpcs⟩ := ih (fun x hx => hparse x (List.mem_cons_of_mem h hx))
      unfold collectPeriods
      cases hp : parse_period_column h with
      | error e => rw [hp] at hh; simp at hh
      | ok p =>
          cases p with
          | none => exact ⟨pcs, by rw [hpcs]; rfl⟩
          | some q => exact ⟨(h, q.1, q.2) :: pcs, by rw [hpcs]; rfl⟩

/-- C9: provided every header parses without raising (the period-discovery
loop runs before the column check), the transform halts with an error — the
missing-columns `ValueError`, propagating to exit status 1 — iff at least one
of the six declared identity columns is absent from the source table's
columns; when all are present it proceeds to the unpivot and returns the
final table. -/
theorem claim_C9_missing_columns (t : WideTable)
    (hparse : ∀ h ∈ t.headers, parseOk h = true) :
    (mainExitCode t ≠ 0 ↔ ∃ c ∈ idColumns, ¬ c ∈ t.headers) ∧
    (∀ e, transform_trial_balances t = Except.error e →
      e = TError.missingColumns (idColumns.filter (fun c => !(t.headers.contains c)))) := by
  obtain ⟨pcs, hpcs⟩ := collectPeriods_ok_of_parseOk t.headers hparse
  have htr : transform_trial_balances t =
      (if idColumns.filter (fun c => !(t.headers.contains c)) ≠ [] then
        Except.error (TError.missingColumns
          (idColumns.filter (fun c => !(t.headers.contains c))))
      else Except.ok ((combinedRows (factTable t pcs)).map toFinalRow)) := by
    unfold transform_trial_balances
    rw [hpcs]
    rfl
  have hiff : idColumns.filter (fun c => !(t.headers.contains c)) ≠ [] ↔
      ∃ c ∈ idColumns, ¬ c ∈ t.headers := by
    rw [ne_eq, List.filter_eq_nil_iff]
    simp
  constructor
  · unfold mainExitCode
    rw [htr]
    by_cases hm : idColumns.filter (fun c => !(t.headers.contains c)) = []
    · rw [if_neg (fun hne => hne hm)]
      exact iff_of_false (fun h => h rfl) (fun hex => (hiff.mpr hex) hm)
    · rw [if_pos hm]
      exact iff_of_true (fun h => Nat.one_ne_zero h) (hiff.mp hm)
  · intro e he
    rw [htr] at he
    by_cases hm : idColumns.filter (fun c => !(t.headers.contains c)) = []
    · rw [if_neg (fun hne => hne hm)] at he
      cases he
    · rw [if_pos hm] at he
      injection he with h
      exact h.symm

/-- C9 witness: the §8.7 table (all identity columns present, exit 0) and a
table missing every identity column (error, exit 1). -/
theorem claim_C9_witness :
    ((mainExitCode exTable ≠ 0 ↔ ∃ c ∈ idColumns, ¬ c ∈ exTable.headers) ∧
      (mainExitCode exTableMissingIds ≠ 0 ↔
        ∃ c ∈ idColumns, ¬ c ∈ exTableMissingIds.headers)) ∧
    mainExitCode exTable = 0 ∧ mainExitCode exTableMissingIds = 1 :=
  ⟨⟨(claim_C9_missing_columns exTable (by decide)).1,
    (claim_C9_missing_columns exTableMissingIds (by decide)).1⟩,
    by rfl, by rfl⟩

/-! ## Parser lemmas (for claims C3 and C4) -/

theorem digitVal_le_nine (c : Char) (h : isPyDigit c = true) : digitVal c ≤ 9 := by
  simp only [isPyDigit, Bool.and_eq_true, decide_eq_true_eq] at h
  unfold digitVal
  omega

theorem isPySpace_eq_false_of_digit (c : Char) (h : isPyDigit c = true) :
    isPySpace c = false := by
  simp only [isPyDigit, Bool.and_eq_true, decide_eq_true_eq] at h
  simp only [isPySpace, Bool.or_eq_false_iff, decide_eq_false_iff_not]
  refine ⟨⟨⟨⟨⟨?_, ?_⟩, ?_⟩, ?_⟩, ?_⟩, ?_⟩ <;> rintro rfl <;> exact absurd h (by decide)

theorem pyStrip_digits (cs : List Char) (hne : cs ≠ [])
    (hd : ∀ c ∈ cs, isPyDigit c = true) : pyStrip cs = cs := by
  unfold pyStrip
  have h1 : cs.dropWhile isPySpace = cs := by
    cases cs with
    | nil => rfl
    | cons c rest =>
        rw [List.dropWhile_cons,
          isPySpace_eq_false_of_digit c (hd c (List.mem_cons_self c rest))]
        simp
  rw [h1]
  have h2 : cs.reverse.dropWhile isPySpace = cs.reverse := by
    cases hrev : cs.reverse with
    | nil => rfl
    | cons c rest =>
        have hc : c ∈ cs := by
          have : c ∈ cs.reverse := hrev ▸ List.mem_cons_self c rest
          exact List.mem_reverse.mp this
        rw [List.dropWhile_cons, isPySpace_eq_false_of_digit c (hd c hc)]
        simp
  rw [h2, List.reverse_reverse]

theorem pyDigitsGo_all_digits : ∀ (rest : List Char) (acc : Nat),
    (∀ c ∈ rest, isPyDigit c = true) →
    pyDigitsGo acc rest = some (rest.foldl (fun a c => 10 * a + digitVal c) acc)
  | [], _, _ => rfl
  | c :: rs, acc, hall => by
      unfold pyDigitsGo
      rw [if_pos (hall c (List.mem_cons_self c rs))]
      rw [pyDigitsGo_all_digits rs _ (fun x hx => hall x (List.mem_cons_of_mem c hx))]
      rfl

theorem pyInt_digits (cs : List Char) (hne : cs ≠ [])
    (hd : ∀ c ∈ cs, isPyDigit c = true) :
    pyInt cs = some ((digitsNatVal cs : Nat) : Int) := by
  unfold pyInt
  rw [pyStrip_digits cs hne hd]
  cases cs with
  | nil => exact absurd rfl hne
  | cons c rest =>
      have hc := hd c (List.mem_cons_self c rest)
      have hplus : c ≠ '+' := by rintro rfl; exact absurd hc (by decide)
      have hminus : c ≠ '-' := by rintro rfl; exact absurd hc (by decide)
      simp only [pyIntCore]
      rw [if_neg hplus, if_neg hminus]
      simp only [pyDigits]
      rw [if_pos hc,
        pyDigitsGo_all_digits rest _ (fun x hx => hd x (List.mem_cons_of_mem c hx))]
      simp [digitsNatVal]

theorem foldl_digits_lt (cs : List Char) : ∀ acc : Nat,
    (∀ c ∈ cs, isPyDigit c = true) →
    cs.foldl (fun a c => 10 * a + digitVal c) acc < (acc + 1) * 10 ^ cs.length := by
  induction cs with
  | nil => intro acc _; simp
  | cons c rs ih =>
      intro acc hall
      rw [List.foldl_cons]
      have hd9 : digitVal c ≤ 9 := digitVal_le_nine c (hall c (List.mem_cons_self c rs))
      have hrec := ih (10 * acc + digitVal c) (fun x hx => hall x (List.mem_cons_of_mem c hx))
      refine lt_of_lt_of_le hrec ?_
      rw [List.length_cons, pow_succ]
      calc (10 * acc + digitVal c + 1) * 10 ^ rs.length
          ≤ (10 * (acc + 1)) * 10 ^ rs.length := Nat.mul_le_mul_right _ (by omega)
        _ = (acc + 1) * (10 ^ rs.length * 10) := by ring

theorem digitsNatVal_lt (cs : List Char) (hd : ∀ c ∈ cs, isPyDigit c = true) :
    digitsNatVal cs < 10 ^ cs.length := by
  have h := foldl_digits_lt cs 0 hd
  simpa [digitsNatVal] using h

theorem isleap_eq_spec (y : Int) : isleap y = specIsLeapYear y := by
  unfold isleap specIsLeapYear
  rw [Bool.eq_iff_iff]
  simp only [Bool.and_eq_true, Bool.or_eq_true, beq_iff_eq, bne_iff_ne, ne_eq,
    decide_eq_true_eq, ← Int.dvd_iff_emod_eq_zero]
  have h40 : (400 : Int) ∣ y → (4 : Int) ∣ y := fun h => dvd_trans (by norm_num) h
  tauto

theorem monthrange_eq_gregorian (y : Int) (m : Nat) (h1 : 1 ≤ m) (h2 : m ≤ 12) :
    monthrangeDays y m = gregorianLastDay y m := by
  interval_cases m
  all_goals simp [monthrangeDays, gregorianLastDay, mdaysList, isleap_eq_spec]
  cases specIsLeapYear y <;> simp

theorem one_le_monthrangeDays (y : Int) (m : Nat) (h1 : 1 ≤ m) (h2 : m ≤ 12) :
    1 ≤ monthrangeDays y m := by
  rw [monthrange_eq_gregorian y m h1 h2]
  unfold gregorianLastDay
  split_ifs <;> norm_num

theorem monthLoop_skip (cs : List Char) (mname : String) (mnum : Nat)
    (rest : List (String × Nat))
    (hsw : startsWithL (lowerL cs) mname.toList = false) :
    monthLoop cs ((mname, mnum) :: rest) = monthLoop cs rest := by
  simp only [monthLoop]
  rw [hsw]
  simp

theorem monthLoop_none (cs : List Char) :
    ∀ ml : List (String × Nat),
      (∀ p ∈ ml, startsWithL (lowerL cs) p.1.toList = false) →
      monthLoop cs ml = Except.ok none
  | [], _ => rfl
  | (m, n) :: rest, hall => by
      rw [monthLoop_skip cs m n rest (hall (m, n) (List.mem_cons_self _ _))]
      exact monthLoop_none cs rest (fun q hq => hall q (List.mem_cons_of_mem _ hq))

theorem monthLoop_hit (cs : List Char) (mname : String) (mnum : Nat)
    (rest : List (String × Nat)) (y : Int)
    (hsw : startsWithL (lowerL cs) mname.toList = true)
    (hint : pyInt (lastChars 4 cs) = some y)
    (hy1 : 1 ≤ y) (hy2 : y ≤ 9999) (hm1 : 1 ≤ mnum) (hm2 : mnum ≤ 12) :
    monthLoop cs ((mname, mnum) :: rest) =
      Except.ok (some (toString y ++ "-" ++ zeroPad 2 mnum,
        ⟨y, mnum, monthrangeDays y mnum⟩)) := by
  have hdate : mkPyDate y mnum (monthrangeDays y mnum) =
      some ⟨y, mnum, monthrangeDays y mnum⟩ := by
    unfold mkPyDate
    rw [if_pos ⟨hy1, hy2, hm1, hm2, one_le_monthrangeDays y mnum hm1 hm2, le_refl _⟩]
  unfold monthLoop
  simp only [hsw, if_true, hint, hdate]

/-! ## Claim C4: parser totality -/

/-- C4 counterexample: the bare header `"Openingsbalans"` matches the
opening-balance keyword, then `int("lans")` raises a `ValueError`; the parser
is not total. -/
theorem claim_C4_counterexample :
    parse_period_column "Openingsbalans" = Except.error () := by rfl

/-- C4 (amended): the parser returns `None` — and never raises — for every
header that matches neither the opening-balance keyword nor any month-name
keyword (case-insensitively); a header that does match a keyword can instead
raise when its trailing four characters do not form a valid year. -/
theorem claim_C4_no_keyword_total (s : String)
    (hop : startsWithL (lowerL s.toList) "openingsbalans".toList = false)
    (hmn : ∀ p ∈ MONTH_MAP, startsWithL (lowerL s.toList) p.1.toList = false) :
    parse_period_column s = Except.ok none := by
  unfold parse_period_column
  simp only [hop, Bool.false_eq_true, if_false]
  exact monthLoop_none s.toList MONTH_MAP hmn

/-- C4 witness: a non-keyword header parses to `None` without raising. -/
theorem claim_C4_witness : parse_period_column "SomeOtherColumn" = Except.ok none :=
  claim_C4_no_keyword_total "SomeOtherColumn" (by decide) (by decide)

/-! ## Claim C8: schema coercion idempotence -/

theorem strCell_idem (c : CellValue) : strCell (strCell c) = strCell c := by
  cases c <;> rfl

theorem coerceNumericCell_idem (c : CellValue) :
    coerceNumericCell (coerceNumericCell c) = coerceNumericCell c := by
  cases c with
  | null => rfl
  | num q => rfl
  | intv i => rfl
  | strv s => cases hp : pyParseFloat s <;> simp [coerceNumericCell, hp]
  | datetime t => rfl
  | boolv b => rfl

theorem coerceNumericCell_no_datetime (c : CellValue) (h : isDatetimeCell c = false) :
    isDatetimeCell (coerceNumericCell c) = false := by
  cases c with
  | null => rfl
  | num q => rfl
  | intv i => rfl
  | strv s => cases hp : pyParseFloat s <;> simp [coerceNumericCell, hp, isDatetimeCell]
  | datetime t => simp [isDatetimeCell] at h
  | boolv b => rfl

theorem toNumericCol_fix (col col2 : List CellValue)
    (h : toNumericCol col = some col2) : toNumericCol col2 = some col2 := by
  unfold toNumericCol at h ⊢
  by_cases hany : col.any isDatetimeCell = true
  · rw [if_pos hany] at h
    cases h
  · rw [if_neg hany] at h
    injection h with h2
    have hmem : ∀ c ∈ col, isDatetimeCell c = false := by
      intro c hc
      cases hdc : isDatetimeCell c
      · rfl
      · exact absurd (List.any_eq_true.mpr ⟨c, hc, hdc⟩) hany
    have hnd2 : col2.any isDatetimeCell = false := by
      rw [← h2]
      cases hx : (col.map coerceNumericCell).any isDatetimeCell
      · rfl
      · obtain ⟨c2, hc2, hdc2⟩ := List.any_eq_true.mp hx
        obtain ⟨c, hc, rfl⟩ := List.mem_map.mp hc2
        rw [coerceNumericCell_no_datetime c (hmem c hc)] at hdc2
        cases hdc2
    rw [if_neg (by rw [hnd2]; exact Bool.false_ne_true)]
    rw [← h2, List.map_map]
    exact congrArg some (List.map_congr_left (fun c _ => coerceNumericCell_idem c))

theorem toInt64Cell_some (c c0 : CellValue) (h : toInt64Cell c = some c0) :
    c0 = CellValue.null ∨ ∃ i, c0 = CellValue.intv i := by
  cases c with
  | null => injection h with h2; exact Or.inl h2.symm
  | intv i => injection h with h2; exact Or.inr ⟨i, h2.symm⟩
  | num q =>
      simp only [toInt64Cell] at h
      split_ifs at h with hq
      injection h with h2
      exact Or.inr ⟨q.num, h2.symm⟩
  | strv s => simp [toInt64Cell] at h
  | datetime t => simp [toInt64Cell] at h
  | boolv b => simp [toInt64Cell] at h

theorem cell64_fix (c : CellValue)
    (h : c = CellValue.null ∨ ∃ i, c = CellValue.intv i) :
    coerceNumericCell c = c ∧ toInt64Cell c = some c ∧ isDatetimeCell c = false := by
  rcases h with rfl | ⟨i, rfl⟩ <;> exact ⟨rfl, rfl, rfl⟩

theorem mapCells_int_fix : ∀ (col col2 : List CellValue),
    mapCells toInt64Cell col = some col2 →
    (∀ c ∈ col2, c = CellValue.null ∨ ∃ i, c = CellValue.intv i) ∧
    mapCells toInt64Cell col2 = some col2 := by
  intro col
  induction col with
  | nil =>
      intro col2 h
      simp only [mapCells] at h
      injection h with h2
      subst h2
      exact ⟨fun c hc => absurd hc (List.not_mem_nil _), rfl⟩
  | cons c rest ih =>
      intro col2 h
      simp only [mapCells] at h
      cases hc : toInt64Cell c with
      | none => rw [hc] at h; exact Option.noConfusion h
      | some c0 =>
          cases hr : mapCells toInt64Cell rest with
          | none => rw [hc, hr] at h; exact Option.noConfusion h
          | some rest2 =>
              rw [hc, hr] at h
              injection h with h2
              subst h2
              obtain ⟨hall, hmap⟩ := ih rest2 hr
              have hc0 := toInt64Cell_some c c0 hc
              refine ⟨?_, ?_⟩
              · intro x hx
                rcases List.mem_cons.mp hx with rfl | hx2
                · exact hc0
                · exact hall x hx2
              · simp only [mapCells]
                rw [(cell64_fix c0 hc0).2.1, hmap]

theorem toNumericCol_of_int_cells (col : List CellValue)
    (h : ∀ c ∈ col, c = CellValue.null ∨ ∃ i, c = CellValue.intv i) :
    toNumericCol col = some col := by
  unfold toNumericCol
  have hany : col.any isDatetimeCell = false := by
    cases hx : col.any isDatetimeCell
    · rfl
    · obtain ⟨c, hc, hdc⟩ := List.any_eq_true.mp hx
      rcases h c hc with rfl | ⟨i, rfl⟩ <;> simp [isDatetimeCell] at hdc
  rw [if_neg (by rw [hany]; exact Bool.false_ne_true)]
  rw [show col.map coerceNumericCell = col.map id from
    List.map_congr_left (fun c hc => (cell64_fix c (h c hc)).1), List.map_id]

theorem toDatetimeCell_idem (c : CellValue) (h : isBoolCell c = false) :
    toDatetimeCell (toDatetimeCell c) = toDatetimeCell c := by
  cases c with
  | null => rfl
  | num q => rfl
  | intv i => rfl
  | strv s => cases hp : parseIsoDate s <;> simp [toDatetimeCell, hp]
  | datetime t => rfl
  | boolv b => simp [isBoolCell] at h

theorem toDatetimeCell_not_bool (c : CellValue) (h : isBoolCell c = false) :
    isBoolCell (toDatetimeCell c) = false := by
  cases c with
  | null => rfl
  | num q => rfl
  | intv i => rfl
  | strv s => cases hp : parseIsoDate s <;> simp [toDatetimeCell, hp, isBoolCell]
  | datetime t => rfl
  | boolv b => simp [isBoolCell] at h

theorem toDatetimeCol_fix (col col2 : List CellValue)
    (h : toDatetimeCol col = some col2) : toDatetimeCol col2 = some col2 := by
  unfold toDatetimeCol at h ⊢
  by_cases hany : col.any isBoolCell = true
  · rw [if_pos hany] at h
    cases h
  · rw [if_neg hany] at h
    injection h with h2
    have hmem : ∀ c ∈ col, isBoolCell c = false := by
      intro c hc
      cases hdc : isBoolCell c
      · rfl
      · exact absurd (List.any_eq_true.mpr ⟨c, hc, hdc⟩) hany
    have hnb2 : col2.any isBoolCell = false := by
      rw [← h2]
      cases hx : (col.map toDatetimeCell).any isBoolCell
      · rfl
      · obtain ⟨c2, hc2, hdc2⟩ := List.any_eq_true.mp hx
        obtain ⟨c, hc, rfl⟩ := List.mem_map.mp hc2
        rw [toDatetimeCell_not_bool c (hmem c hc)] at hdc2
        cases hdc2
    rw [if_neg (by rw [hnb2]; exact Bool.false_ne_true)]
    rw [← h2, List.map_map]
    exact congrArg some (List.map_congr_left (fun c hc => toDatetimeCell_idem c (hmem c hc)))

theorem coerceCol_idem (dt : DType) (col : List CellValue) :
    coerceCol dt (coerceCol dt col) = coerceCol dt col := by
  cases dt with
  | dtStr =>
      simp only [coerceCol]
      rw [List.map_map]
      exact List.map_congr_left (fun c _ => strCell_idem c)
  | dtFloat =>
      simp only [coerceCol]
      cases hn : toNumericCol col with
      | none => simp [hn]
      | some col2 =>
          have hfix := toNumericCol_fix col col2 hn
          simp [hn, hfix]
  | dtInt =>
      simp only [coerceCol]
      cases hn : toNumericCol col with
      | none => simp [hn]
      | some col2 =>
          cases hm : mapCells toInt64Cell col2 with
          | none => simp [hn, hm]
          | some col3 =>
              obtain ⟨hall, hmfix⟩ := mapCells_int_fix col2 col3 hm
              have hnum3 : toNumericCol col3 = some col3 := toNumericCol_of_int_cells col3 hall
              simp [hn, hm, hnum3, hmfix]
  | dtDatetime =>
      simp only [coerceCol]
      cases hn : toDatetimeCol col with
      | none => simp [hn]
      | some col2 =>
          have hfix := toDatetimeCol_fix col col2 hn
          simp [hn, hfix]

/-- C8: schema coercion is idempotent — applying `apply_schema` twice with
the same declared column-to-type mapping yields a table value-for-value
identical to applying it once. -/
theorem claim_C8_apply_schema_idem (tbl : List (String × List CellValue))
    (schema : List (String × DType)) :
    apply_schema (apply_schema tbl schema) schema = apply_schema tbl schema := by
  unfold apply_schema
  rw [List.map_map]
  apply List.map_congr_left
  intro col _
  cases hl : schemaLookup col.1 schema with
  | none => simp [Function.comp, hl]
  | some dt => simp [Function.comp, hl, coerceCol_idem]

/-! ## Claim C3: period parse correctness -/

/-- C3: (i) for every header whose lowercase form starts with one of the
twelve Dutch month names and whose last four characters are the decimal
digits of a year (a Gregorian year, hence ≥ 1), the parser returns the key
`"{year}-{month:02d}"` and the last Gregorian calendar day of that
(year, month) — leap years included; (ii) for a header starting with the
opening-balance keyword it returns `"{year}-00"` and January 1 of that year;
(iii) for a header matching neither prefix it returns `None`. -/
theorem claim_C3_period_parse (s : String) :
    (∀ mname mnum, (mname, mnum) ∈ MONTH_MAP →
      startsWithL (lowerL s.toList) mname.toList = true →
      (lastChars 4 s.toList).length = 4 →
      (∀ c ∈ lastChars 4 s.toList, isPyDigit c = true) →
      1 ≤ digitsNatVal (lastChars 4 s.toList) →
      parse_period_column s = Except.ok (some
        (toString ((digitsNatVal (lastChars 4 s.toList) : Nat) : Int) ++ "-" ++
            zeroPad 2 mnum,
         ⟨((digitsNatVal (lastChars 4 s.toList) : Nat) : Int), mnum,
          gregorianLastDay ((digitsNatVal (lastChars 4 s.toList) : Nat) : Int) mnum⟩))) ∧
    (startsWithL (lowerL s.toList) "openingsbalans".toList = true →
      (lastChars 4 s.toList).length = 4 →
      (∀ c ∈ lastChars 4 s.toList, isPyDigit c = true) →
      1 ≤ digitsNatVal (lastChars 4 s.toList) →
      parse_period_column s = Except.ok (some
        (toString ((digitsNatVal (lastChars 4 s.toList) : Nat) : Int) ++ "-00",
         ⟨((digitsNatVal (lastChars 4 s.toList) : Nat) : Int), 1, 1⟩))) ∧
    (startsWithL (lowerL s.toList) "openingsbalans".toList = false →
      (∀ p ∈ MONTH_MAP, startsWithL (lowerL s.toList) p.1.toList = false) →
      parse_period_column s = Except.ok none) := by
  have hexcl : ∀ (p q : List Char) (i : Nat), i < p.length → i < q.length →
      p.get? i ≠ q.get? i → startsWithL (lowerL s.toList) p = true →
      startsWithL (lowerL s.toList) q = false :=
    fun p q i h1 h2 h3 hp => startsWith_exclusive _ p q i h1 h2 h3 hp
  refine ⟨?_, ?_, ?_⟩
  · intro mname mnum hmem hsw hlen hdig hpos
    have hne4 : lastChars 4 s.toList ≠ [] := by
      intro h; rw [h] at hlen; simp at hlen
    have hy : pyInt (lastChars 4 s.toList) =
        some ((digitsNatVal (lastChars 4 s.toList) : Nat) : Int) :=
      pyInt_digits _ hne4 hdig
    have hlt : digitsNatVal (lastChars 4 s.toList) < 10000 := by
      have h := digitsNatVal_lt _ hdig
      rw [hlen] at h
      norm_num at h
      exact h
    have hy1 : (1 : Int) ≤ ((digitsNatVal (lastChars 4 s.toList) : Nat) : Int) := by
      exact_mod_cast hpos
    have hy2 : ((digitsNatVal (lastChars 4 s.toList) : Nat) : Int) ≤ 9999 := by
      exact_mod_cast Nat.lt_succ_iff.mp hlt
    simp only [MONTH_MAP, List.mem_cons, List.not_mem_nil, or_false,
      Prod.mk.injEq] at hmem
    rcases hmem with hm | hm | hm | hm | hm | hm | hm | hm | hm | hm | hm | hm <;>
      obtain ⟨rfl, rfl⟩ := hm
    · -- januari
      simp only [parse_period_column]
      rw [hexcl _ _ 0 (by decide) (by decide) (by decide) hsw]
      simp only [Bool.false_eq_true, if_false, MONTH_MAP]
      rw [monthLoop_hit s.toList "januari" 1 _ _ hsw hy hy1 hy2 (by norm_num) (by norm_num),
        monthrange_eq_gregorian _ 1 (by norm_num) (by norm_num)]
    · -- februari
      simp only [parse_period_column]
      rw [hexcl _ _ 0 (by decide) (by decide) (by decide) hsw]
      simp only [Bool.false_eq_true, if_false, MONTH_MAP]
      rw [monthLoop_skip s.toList "januari" 1 _
          (hexcl _ _ 0 (by decide) (by decide) (by decide) hsw)]
      rw [monthLoop_hit s.toList "februari" 2 _ _ hsw hy hy1 hy2 (by norm_num) (by norm_num),
        monthrange_eq_gregorian _ 2 (by norm_num) (by norm_num)]
    · -- maart
      simp only [parse_period_column]
      rw [hexcl _ _ 0 (by decide) (by decide) (by decide) hsw]
      simp only [Bool.false_eq_true, if_false, MONTH_MAP]
      rw [monthLoop_skip s.toList "januari" 1 _
          (hexcl _ _ 0 (by decide) (by decide) (by decide) hsw)]
      rw [monthLoop_skip s.toList "februari" 2 _
          (hexcl _ _ 0 (by decide) (by decide) (by decide) hsw)]
      rw [monthLoop_hit s.toList "maart" 3 _ _ hsw hy hy1 hy2 (by norm_num) (by norm_num),
        monthrange_eq_gregorian _ 3 (by norm_num) (by norm_num)]
    · -- april
      simp only [parse_period_column]
      rw [hexcl _ _ 0 (by decide) (by decide) (by decide) hsw]
      simp only [Bool.false_eq_true, if_false, MONTH_MAP]
      rw [monthLoop_skip s.toList "januari" 1 _
          (hexcl _ _ 0 (by decide) (by decide) (by decide) hsw)]
      rw [monthLoop_skip s.toList "februari" 2 _
          (hexcl _ _ 0 (by decide) (by decide) (by decide) hsw)]
      rw [monthLoop_skip s.toList "maart" 3 _
          (hexcl _ _ 0 (by decide) (by decide) (by decide) hsw)]
      rw [monthLoop_hit s.toList "april" 4 _ _ hsw hy hy1 hy2 (by norm_num) (by norm_num),
        monthrange_eq_gregorian _ 4 (by norm_num) (by norm_num)]
    · -- mei
      simp only [parse_period_column]
      rw [hexcl _ _ 0 (by decide) (by decide) (by decide) hsw]
      simp only [Bool.false_eq_true, if_false, MONTH_MAP]
      rw [monthLoop_skip s.toList "januari" 1 _
          (hexcl _ _ 0 (by decide) (by decide) (by decide) hsw)]
      rw [monthLoop_skip s.toList "februari" 2 _
          (hexcl _ _ 0 (by decide) (by decide) (by decide) hsw)]
      rw [monthLoop_skip s.toList "maart" 3 _
          (hexcl _ _ 1 (by decide) (by decide) (by decide) hsw)]
      rw [monthLoop_skip s.toList "april" 4 _
          (hexcl _ _ 0 (by decide) (by decide) (by decide) hsw)]
      rw [monthLoop_hit s.toList "mei" 5 _ _ hsw hy hy1 hy2 (by norm_num) (by norm_num),
        monthrange_eq_gregorian _ 5 (by norm_num) (by norm_num)]
    · -- juni
      simp only [parse_period_column]
      rw [hexcl _ _ 0 (by decide) (by decide) (by decide) hsw]
      simp only [Bool.false_eq_true, if_false, MONTH_MAP]
      rw [monthLoop_skip s.toList "januari" 1 _
          (hexcl _ _ 1 (by decide) (by decide) (by decide) hsw)]
      rw [monthLoop_skip s.toList "februari" 2 _
          (hexcl _ _ 0 (by decide) (by decide) (by decide) hsw)]
      rw [monthLoop_skip s.toList "maart" 3 _
          (hexcl _ _ 0 (by decide) (by decide) (by decide) hsw)]
      rw [monthLoop_skip s.toList "april" 4 _
          (hexcl _ _ 0 (by decide) (by decide) (by decide) hsw)]
      rw [monthLoop_skip s.toList "mei" 5 _
          (hexcl _ _ 0 (by decide) (by decide) (by decide) hsw)]
      rw [monthLoop_hit s.toList "juni" 6 _ _ hsw hy hy1 hy2 (by norm_num) (by norm_num),
        monthrange_eq_gregorian _ 6 (by norm_num) (by norm_num)]
    · -- juli
      simp only [parse_period_column]
      rw [hexcl _ _ 0 (by decide) (by decide) (by decide) hsw]
      simp only [Bool.false_eq_true, if_false, MONTH_MAP]
      rw [monthLoop_skip s.toList "januari" 1 _
          (hexcl _ _ 1 (by decide) (by decide) (by decide) hsw)]
      rw [monthLoop_skip s.toList "februari" 2 _
          (hexcl _ _ 0 (by decide) (by decide) (by decide) hsw)]
      rw [monthLoop_skip s.toList "maart" 3 _
          (hexcl _ _ 0 (by decide) (by decide) (by decide) hsw)]
      rw [monthLoop_skip s.toList "april" 4 _
          (hexcl _ _ 0 (by decide) (by decide) (by decide) hsw)]
      rw [monthLoop_skip s.toList "mei" 5 _
          (hexcl _ _ 0 (by decide) (by decide) (by decide) hsw)]
      rw [monthLoop_skip s.toList "juni" 6 _
          (hexcl _ _ 2 (by decide) (by decide) (by decide) hsw)]
      rw [monthLoop_hit s.toList "juli" 7 _ _ hsw hy hy1 hy2 (by norm_num) (by norm_num),
        monthrange_eq_gregorian _ 7 (by norm_num) (by norm_num)]
    · -- augustus
      simp only [parse_period_column]
      rw [hexcl _ _ 0 (by decide) (by decide) (by decide) hsw]
      simp only [Bool.false_eq_true, if_false, MONTH_MAP]
      rw [monthLoop_skip s.toList "januari" 1 _
          (hexcl _ _ 0 (by decide) (by decide) (by decide) hsw)]
      rw [monthLoop_skip s.toList "februari" 2 _
          (hexcl _ _ 0 (by decide) (by decide) (by decide) hsw)]
      rw [monthLoop_skip s.toList "maart" 3 _
          (hexcl _ _ 0 (by decide) (by decide) (by decide) hsw)]
      rw [monthLoop_skip s.toList "april" 4 _
          (hexcl _ _ 1 (by decide) (by decide) (by decide) hsw)]
      rw [monthLoop_skip s.toList "mei" 5 _
          (hexcl _ _ 0 (by decide) (by decide) (by decide) hsw)]
      rw [monthLoop_skip s.toList "juni" 6 _
          (hexcl _ _ 0 (by decide) (by decide) (by decide) hsw)]
      rw [monthLoop_skip s.toList "juli" 7 _
          (hexcl _ _ 0 (by decide) (by decide) (by decide) hsw)]
      rw [monthLoop_hit s.toList "augustus" 8 _ _ hsw hy hy1 hy2 (by norm_num) (by norm_num),
        monthrange_eq_gregorian _ 8 (by norm_num) (by norm_num)]
    · -- september
      simp only [parse_period_column]
      rw [hexcl _ _ 0 (by decide) (by decide) (by decide) hsw]
      simp only [Bool.false_eq_true, if_false, MONTH_MAP]
      rw [monthLoop_skip s.toList "januari" 1 _
          (hexcl _ _ 0 (by decide) (by decide) (by decide) hsw)]
      rw [monthLoop_skip s.toList "februari" 2 _
          (hexcl _ _ 0 (by decide) (by decide) (by decide) hsw)]
      rw [monthLoop_skip s.toList "maart" 3 _
          (hexcl _ _ 0 (by decide) (by decide) (by decide) hsw)]
      rw [monthLoop_skip s.toList "april" 4 _
          (hexcl _ _ 0 (by decide) (by decide) (by decide) hsw)]
      rw [monthLoop_skip s.toList "mei" 5 _
          (hexcl _ _ 0 (by decide) (by decide) (by decide) hsw)]
      rw [monthLoop_skip s.toList "juni" 6 _
          (hexcl _ _ 0 (by decide) (by decide) (by decide) hsw)]
      rw [monthLoop_skip s.toList "juli" 7 _
          (hexcl _ _ 0 (by decide) (by decide) (by decide) hsw)]
      rw [monthLoop_skip s.toList "augustus" 8 _
          (hexcl _ _ 0 (by decide) (by decide) (by decide) hsw)]
      rw [monthLoop_hit s.toList "september" 9 _ _ hsw hy hy1 hy2 (by norm_num) (by norm_num),
        monthrange_eq_gregorian _ 9 (by norm_num) (by norm_num)]
    · -- oktober
      simp only [parse_period_column]
      rw [hexcl _ _ 1 (by decide) (by decide) (by decide) hsw]
      simp only [Bool.false_eq_true, if_false, MONTH_MAP]
      rw [monthLoop_skip s.toList "januari" 1 _
          (hexcl _ _ 0 (by decide) (by decide) (by decide) hsw)]
      rw [monthLoop_skip s.toList "februari" 2 _
          (hexcl _ _ 0 (by decide) (by decide) (by decide) hsw)]
      rw [monthLoop_skip s.toList "maart" 3 _
          (hexcl _ _ 0 (by decide) (by decide) (by decide) hsw)]
      rw [monthLoop_skip s.toList "april" 4 _
          (hexcl _ _ 0 (by decide) (by decide) (by decide) hsw)]
      rw [monthLoop_skip s.toList "mei" 5 _
          (hexcl _ _ 0 (by decide) (by decide) (by decide) hsw)]
      rw [monthLoop_skip s.toList "juni" 6 _
          (hexcl _ _ 0 (by decide) (by decide) (by decide) hsw)]
      rw [monthLoop_skip s.toList "juli" 7 _
          (hexcl _ _ 0 (by decide) (by decide) (by decide) hsw)]
      rw [monthLoop_skip s.toList "augustus" 8 _
          (hexcl _ _ 0 (by decide) (by decide) (by decide) hsw)]
      rw [monthLoop_skip s.toList "september" 9 _
          (hexcl _ _ 0 (by decide) (by decide) (by decide) hsw)]
      rw [monthLoop_hit s.toList "oktober" 10 _ _ hsw hy hy1 hy2 (by norm_num) (by norm_num),
        monthrange_eq_gregorian _ 10 (by norm_num) (by norm_num)]
    · -- november
      simp only [parse_period_column]
      rw [hexcl _ _ 0 (by decide) (by decide) (by decide) hsw]
      simp only [Bool.false_eq_true, if_false, MONTH_MAP]
      rw [monthLoop_skip s.toList "januari" 1 _
          (hexcl _ _ 0 (by decide) (by decide) (by decide) hsw)]
      rw [monthLoop_skip s.toList "februari" 2 _
          (hexcl _ _ 0 (by decide) (by decide) (by decide) hsw)]
      rw [monthLoop_skip s.toList "maart" 3 _
          (hexcl _ _ 0 (by decide) (by decide) (by decide) hsw)]
      rw [monthLoop_skip s.toList "april" 4 _
          (hexcl _ _ 0 (by decide) (by decide) (by decide) hsw)]
      rw [monthLoop_skip s.toList "mei" 5 _
          (hexcl _ _ 0 (by decide) (by decide) (by decide) hsw)]
      rw [monthLoop_skip s.toList "juni" 6 _
          (hexcl _ _ 0 (by decide) (by decide) (by decide) hsw)]
      rw [monthLoop_skip s.toList "juli" 7 _
          (hexcl _ _ 0 (by decide) (by decide) (by decide) hsw)]
      rw [monthLoop_skip s.toList "augustus" 8 _
          (hexcl _ _ 0 (by decide) (by decide) (by decide) hsw)]
      rw [monthLoop_skip s.toList "september" 9 _
          (hexcl _ _ 0 (by decide) (by decide) (by decide) hsw)]
      rw [monthLoop_skip s.toList "oktober" 10 _
          (hexcl _ _ 0 (by decide) (by decide) (by decide) hsw)]
      rw [monthLoop_hit s.toList "november" 11 _ _ hsw hy hy1 hy2 (by norm_num) (by norm_num),
        monthrange_eq_gregorian _ 11 (by norm_num) (by norm_num)]
    · -- december
      simp only [parse_period_column]
      rw [hexcl _ _ 0 (by decide) (by decide) (by decide) hsw]
      simp only [Bool.false_eq_true, if_false, MONTH_MAP]
      rw [monthLoop_skip s.toList "januari" 1 _
          (hexcl _ _ 0 (by decide) (by decide) (by decide) hsw)]
      rw [monthLoop_skip s.toList "februari" 2 _
          (hexcl _ _ 0 (by decide) (by decide) (by decide) hsw)]
      rw [monthLoop_skip s.toList "maart" 3 _
          (hexcl _ _ 0 (by decide) (by decide) (by decide) hsw)]
      rw [monthLoop_skip s.toList "april" 4 _
          (hexcl _ _ 0 (by decide) (by decide) (by decide) hsw)]
      rw [monthLoop_skip s.toList "mei" 5 _
          (hexcl _ _ 0 (by decide) (by decide) (by decide) hsw)]
      rw [monthLoop_skip s.toList "juni" 6 _
          (hexcl _ _ 0 (by decide) (by decide) (by decide) hsw)]
      rw [monthLoop_skip s.toList "juli" 7 _
          (hexcl _ _ 0 (by decide) (by decide) (by decide) hsw)]
      rw [monthLoop_skip s.toList "augustus" 8 _
          (hexcl _ _ 0 (by decide) (by decide) (by decide) hsw)]
      rw [monthLoop_skip s.toList "september" 9 _
          (hexcl _ _ 0 (by decide) (by decide) (by decide) hsw)]
      rw [monthLoop_skip s.toList "oktober" 10 _
          (hexcl _ _ 0 (by decide) (by decide) (by decide) hsw)]
      rw [monthLoop_skip s.toList "november" 11 _
          (hexcl _ _ 0 (by decide) (by decide) (by decide) hsw)]
      rw [monthLoop_hit s.toList "december" 12 _ _ hsw hy hy1 hy2 (by norm_num) (by norm_num),
        monthrange_eq_gregorian _ 12 (by norm_num) (by norm_num)]
  · intro hsw hlen hdig hpos
    have hne4 : lastChars 4 s.toList ≠ [] := by
      intro h; rw [h] at hlen; simp at hlen
    have hy : pyInt (lastChars 4 s.toList) =
        some ((digitsNatVal (lastChars 4 s.toList) : Nat) : Int) :=
      pyInt_digits _ hne4 hdig
    have hlt : digitsNatVal (lastChars 4 s.toList) < 10000 := by
      have h := digitsNatVal_lt _ hdig
      rw [hlen] at h
      norm_num at h
      exact h
    have hy1 : (1 : Int) ≤ ((digitsNatVal (lastChars 4 s.toList) : Nat) : Int) := by
      exact_mod_cast hpos
    have hy2 : ((digitsNatVal (lastChars 4 s.toList) : Nat) : Int) ≤ 9999 := by
      exact_mod_cast Nat.lt_succ_iff.mp hlt
    have hdate : mkPyDate ((digitsNatVal (lastChars 4 s.toList) : Nat) : Int) 1 1 =
        some ⟨((digitsNatVal (lastChars 4 s.toList) : Nat) : Int), 1, 1⟩ := by
      unfold mkPyDate
      rw [if_pos ⟨hy1, hy2, by norm_num, by norm_num, by norm_num,
        one_le_monthrangeDays _ 1 (by norm_num) (by norm_num)⟩]
    simp only [parse_period_column, hsw, if_true, hy, hdate]
  · intro hop hmn
    simp only [parse_period_column]
    rw [hop]
    simp only [Bool.false_eq_true, if_false]
    exact monthLoop_none s.toList MONTH_MAP hmn

/-! ## Group-by algebra (for claims C1 and C2) -/

theorem sum_map_filter_add {α : Type} (p : α → Bool) (f : α → ℚ) (l : List α) :
    ((l.filter p).map f).sum + ((l.filter (fun x => !(p x))).map f).sum =
      (l.map f).sum := by
  induction l with
  | nil => simp
  | cons x xs ih =>
      by_cases h : p x = true
      · rw [List.filter_cons, List.filter_cons, if_pos h, if_neg (by simp [h]),
          List.map_cons, List.sum_cons, List.map_cons, List.sum_cons, ← ih]
        ring
      · have h' : p x = false := by
          cases hx : p x
          · rfl
          · exact absurd hx h
        rw [List.filter_cons, List.filter_cons, if_neg h, if_pos (by simp [h']),
          List.map_cons, List.sum_cons, List.map_cons, List.sum_cons, ← ih]
        ring

/-- Summing group-by fibers over a list of distinct covering keys gives the
total sum. -/
theorem sum_fiber_eq {α κ : Type} [DecidableEq κ] (f : α → ℚ) (kf : α → κ) :
    ∀ (ks : List κ) (l : List α), ks.Nodup → (∀ x ∈ l, kf x ∈ ks) →
      (ks.map (fun k =>
        ((l.filter (fun x => decide (kf x = k))).map f).sum)).sum = (l.map f).sum := by
  intro ks
  induction ks with
  | nil =>
      intro l _ hcov
      cases l with
      | nil => simp
      | cons x xs => exact absurd (hcov x (List.mem_cons_self x xs)) (List.not_mem_nil _)
  | cons k ks ih =>
      intro l hnd hcov
      obtain ⟨hkn, hnd'⟩ := List.nodup_cons.mp hnd
      rw [List.map_cons, List.sum_cons]
      have htail : ∀ k' ∈ ks,
          l.filter (fun x => decide (kf x = k')) =
            (l.filter (fun x => !(decide (kf x = k)))).filter
              (fun x => decide (kf x = k')) := by
        intro k' hk'
        rw [List.filter_filter]
        apply List.filter_congr
        intro x _
        have hkk : ¬(k' = k) := fun hq => hkn (hq ▸ hk')
        by_cases h : kf x = k'
        · simp [h, hkk]
        · simp [h]
      have hcov2 : ∀ x ∈ l.filter (fun x => !(decide (kf x = k))), kf x ∈ ks := by
        intro x hx
        obtain ⟨hxl, hxf⟩ := List.mem_filter.mp hx
        rcases List.mem_cons.mp (hcov x hxl) with h | h
        · simp [h] at hxf
        · exact h
      have ih2 := ih (l.filter (fun x => !(decide (kf x = k)))) hnd' hcov2
      have hmaps : ks.map (fun k' =>
            ((l.filter (fun x => decide (kf x = k'))).map f).sum) =
          ks.map (fun k' =>
            (((l.filter (fun x => !(decide (kf x = k)))).filter
              (fun x => decide (kf x = k'))).map f).sum) :=
        List.map_congr_left (fun k' hk' => by rw [htail k' hk'])
      rw [hmaps, ih2]
      exact sum_map_filter_add _ f l

theorem filter_eq_singleton_of_nodup {α : Type} (p : α → Bool) :
    ∀ (l : List α), l.Nodup → ∀ k0, k0 ∈ l → p k0 = true →
      (∀ x ∈ l, p x = true → x = k0) → l.filter p = [k0] := by
  intro l
  induction l with
  | nil => intro _ k0 h0; exact absurd h0 (List.not_mem_nil _)
  | cons a as ih =>
      intro hnd k0 h0 hp hall
      obtain ⟨hna, hnd'⟩ := List.nodup_cons.mp hnd
      rcases List.mem_cons.mp h0 with rfl | h0'
      · rw [List.filter_cons, if_pos hp, List.filter_eq_nil_iff.mpr]
        intro x hx hpx
        exact hna ((hall x (List.mem_cons_of_mem k0 hx) hpx) ▸ hx)
      · have hpa : p a = false := by
          cases hpa : p a
          · rfl
          · have ha : a = k0 := hall a (List.mem_cons_self a as) hpa
            exact absurd (ha ▸ h0') hna
        rw [List.filter_cons, hpa]
        simp only [Bool.false_eq_true, if_false]
        exact ih hnd' k0 h0' hp (fun x hx hpx => hall x (List.mem_cons_of_mem a hx) hpx)

theorem sum_map_mul_neg_one {κ : Type} (f : κ → ℚ) (l : List κ) :
    (l.map (fun k => f k * (-1))).sum = -((l.map f).sum) := by
  rw [List.sum_map_mul_right]
  ring

theorem mem_balanceRows {facts : List FactRow} {r : FactRow} :
    r ∈ balanceRows facts ↔ r ∈ facts ∧ r.code0 = "BAS" := by
  unfold balanceRows
  rw [List.mem_filter]
  simp only [beq_iff_eq]

theorem mem_profitKeys {facts : List FactRow} {k : String × PyDate × String} :
    k ∈ profitKeys facts ↔ ∃ r ∈ facts, r.code0 = "BAS" ∧ profitKey r = k := by
  unfold profitKeys
  rw [List.mem_dedup, List.mem_map]
  constructor
  · rintro ⟨r, hr, rfl⟩
    obtain ⟨hrf, hrb⟩ := mem_balanceRows.mp hr
    exact ⟨r, hrf, hrb, rfl⟩
  · rintro ⟨r, hrf, hrb, rfl⟩
    exact ⟨r, mem_balanceRows.mpr ⟨hrf, hrb⟩, rfl⟩

/-! ## Claim C1: the profit synthesizer -/

/-- C1: over any fact table in which the period end-date is determined by the
period key (true of every table the pipeline produces, since both come from
the same parsed header): for every (entity, period) group with at least one
balance-sheet (`Code0 = "BAS"`) row, the synthesizer emits exactly one
synthetic row — account `"9999"`, raw value the negated sum of the group's
balance-sheet raw values, display value that sum unnegated (so
DisplayValue = −Value); for a group with no balance-sheet row it emits
nothing. -/
theorem claim_C1_profit_synthesis (facts : List FactRow)
    (hdep : ∀ r ∈ facts, ∀ r' ∈ facts,
      r.jaarPeriode = r'.jaarPeriode → r.lastDate = r'.lastDate)
    (e p : String) :
    (∀ r0 ∈ facts, r0.code0 = "BAS" → r0.naamAdministratie = e → r0.jaarPeriode = p →
      (profit_rows facts).filter
          (fun r => r.naamAdministratie == e && r.jaarPeriode == p) =
        [{ codeGrootboekrekening := "9999"
           naamAdministratie := e
           codeRelatiekostenplaats := none
           naamRelatiekostenplaats := none
           code0 := "BAS"
           code1 := some "060"
           value := -(epBalanceSum facts e p)
           jaarPeriode := p
           lastDate := r0.lastDate
           displayValue := some (epBalanceSum facts e p) }]) ∧
    ((¬∃ r ∈ facts, r.code0 = "BAS" ∧ r.naamAdministratie = e ∧ r.jaarPeriode = p) →
      (profit_rows facts).filter
        (fun r => r.naamAdministratie == e && r.jaarPeriode == p) = []) := by
  constructor
  · intro r0 hr0 hbas hnaam hjp
    have hk0 : profitKey r0 = (p, r0.lastDate, e) := by
      unfold profitKey
      rw [hnaam, hjp]
    unfold profit_rows
    rw [List.filter_map]
    have hcomp : ∀ k ∈ profitKeys facts,
        ((fun r : FactRow => r.naamAdministratie == e && r.jaarPeriode == p) ∘
          profitRow facts) k = (k.2.2 == e && k.1 == p) := by
      intro k _
      simp [profitRow, Function.comp]
    rw [List.filter_congr hcomp]
    have hsingle : (profitKeys facts).filter (fun k => k.2.2 == e && k.1 == p) =
        [(p, r0.lastDate, e)] := by
      apply filter_eq_singleton_of_nodup _ _ (List.nodup_dedup _) (p, r0.lastDate, e)
        (mem_profitKeys.mpr ⟨r0, hr0, hbas, hk0⟩) (by simp)
      intro k hk hq
      obtain ⟨rb, hrbf, hrbb, hrbk⟩ := mem_profitKeys.mp hk
      simp only [Bool.and_eq_true, beq_iff_eq] at hq
      have h1 : rb.jaarPeriode = k.1 := congrArg Prod.fst hrbk
      have h2 : rb.lastDate = k.2.1 :=
        congrArg (fun x : String × PyDate × String => x.2.1) hrbk
      have h3 : rb.naamAdministratie = k.2.2 :=
        congrArg (fun x : String × PyDate × String => x.2.2) hrbk
      have hld : rb.lastDate = r0.lastDate :=
        hdep rb hrbf r0 hr0 (by rw [h1, hq.2, hjp])
      obtain ⟨k1, kld, k3⟩ := k
      simp only at h1 h2 h3 hq
      rw [Prod.mk.injEq, Prod.mk.injEq]
      exact ⟨hq.2.symm ▸ rfl, by rw [← h2, hld], hq.1.symm ▸ rfl⟩
    rw [hsingle, List.map_cons, List.map_nil]
    have hgs : groupSum facts (p, r0.lastDate, e) = epBalanceSum facts e p := by
      unfold groupSum epBalanceSum
      have heq : (balanceRows facts).filter
          (fun r => decide (profitKey r = (p, r0.lastDate, e))) =
          (balanceRows facts).filter
            (fun r => r.naamAdministratie == e && r.jaarPeriode == p) := by
        apply List.filter_congr
        intro r hr
        obtain ⟨hrf, hrb⟩ := mem_balanceRows.mp hr
        by_cases h : profitKey r = (p, r0.lastDate, e)
        · have h1 : r.jaarPeriode = p := congrArg Prod.fst h
          have h3 : r.naamAdministratie = e :=
            congrArg (fun x : String × PyDate × String => x.2.2) h
          simp [h, h1, h3]
        · cases hb : (r.naamAdministratie == e && r.jaarPeriode == p)
          · simp [h]
          · exfalso
            simp only [Bool.and_eq_true, beq_iff_eq] at hb
            have hld : r.lastDate = r0.lastDate :=
              hdep r hrf r0 hr0 (hb.2.trans hjp.symm)
            exact h (by unfold profitKey; rw [hb.1, hb.2, hld])
      rw [heq]
    simp only [profitRow]
    rw [hgs]
    simp [mul_neg_one]
  · intro hno
    unfold profit_rows
    rw [List.filter_map]
    rw [List.filter_eq_nil_iff.mpr ?empty]
    · rfl
    case empty =>
      intro k hk hq
      obtain ⟨rb, hrbf, hrbb, hrbk⟩ := mem_profitKeys.mp hk
      simp only [Function.comp_apply, profitRow, Bool.and_eq_true, beq_iff_eq] at hq
      have h1 : rb.jaarPeriode = k.1 := congrArg Prod.fst hrbk
      have h3 : rb.naamAdministratie = k.2.2 :=
        congrArg (fun x : String × PyDate × String => x.2.2) hrbk
      exact hno ⟨rb, hrbf, hrbb, by rw [h3, hq.1], by rw [h1, hq.2]⟩

/-- C1 witness: the synthesizer at a concrete three-row fact table — one
profit row for the ("A", "2025-01") group, none for an absent group. -/
theorem claim_C1_witness :
    (profit_rows exFacts).filter
        (fun r => r.naamAdministratie == "A" && r.jaarPeriode == "2025-01") =
      [{ codeGrootboekrekening := "9999"
         naamAdministratie := "A"
         codeRelatiekostenplaats := none
         naamRelatiekostenplaats := none
         code0 := "BAS"
         code1 := some "060"
         value := -(epBalanceSum exFacts "A" "2025-01")
         jaarPeriode := "2025-01"
         lastDate := ⟨2025, 1, 31⟩
         displayValue := some (epBalanceSum exFacts "A" "2025-01") }] ∧
    (profit_rows exFacts).filter
        (fun r => r.naamAdministratie == "B" && r.jaarPeriode == "2025-01") = [] := by
  constructor
  · exact (claim_C1_profit_synthesis exFacts (by decide) "A" "2025-01").1
      { codeGrootboekrekening := "100", naamAdministratie := "A",
        codeRelatiekostenplaats := none, naamRelatiekostenplaats := none,
        code0 := "BAS", code1 := some "000", value := 100,
        jaarPeriode := "2025-01", lastDate := ⟨2025, 1, 31⟩,
        displayValue := some 100 }
      (by decide) (by decide) (by decide) (by decide)
  · exact (claim_C1_profit_synthesis exFacts (by decide) "B" "2025-01").2 (by decide)

/-! ## Claim C2: the per-group balance invariant -/

/-- C2 counterexample: running the full transform on the spec's own §8.7
example table, the ("A", "2025-01") group's `DisplayValue` total is 1200
(an `Activa` fact row of 600 plus the profit row's display value 600), not
zero. -/
theorem claim_C2_counterexample :
    pipelineDisplaySum exTable "A" "2025-01" = 1200 ∧ (1200 : ℚ) ≠ 0 := by
  have h1 : pipelineDisplaySum exTable "A" "2025-01" = 600 + ((600 + 0) + 0) := rfl
  exact ⟨h1.trans (by norm_num), by norm_num⟩

/-- C2 (amended): after profit synthesis, for every entity and period, the
raw `Value` total over the balance-sheet rows (`Code0 = "BAS"`, organic fact
rows together with the synthetic profit rows) of the combined fact table is
zero — the profit row closes the balance sheet; the `DisplayValue` total is
in general nonzero. -/
theorem claim_C2_balance_sum_zero (facts : List FactRow) (e p : String) :
    balanceValueSum (combinedRows facts) e p = 0 := by
  unfold balanceValueSum combinedRows
  rw [List.filter_append, List.map_append, List.sum_append]
  have hprof : (profit_rows facts).filter (fun r =>
      r.code0 == "BAS" && r.naamAdministratie == e && r.jaarPeriode == p) =
      ((profitKeys facts).filter (fun k => k.2.2 == e && k.1 == p)).map
        (profitRow facts) := by
    unfold profit_rows
    rw [List.filter_map]
    have hpred : ∀ k ∈ profitKeys facts,
        ((fun r : FactRow => r.code0 == "BAS" && r.naamAdministratie == e &&
          r.jaarPeriode == p) ∘ profitRow facts) k = (k.2.2 == e && k.1 == p) := by
      intro k _
      simp [Function.comp, profitRow]
    rw [List.filter_congr hpred]
  rw [hprof, List.map_map]
  have hvals : ((profitKeys facts).filter (fun k => k.2.2 == e && k.1 == p)).map
      ((fun r : FactRow => r.value) ∘ profitRow facts) =
      ((profitKeys facts).filter (fun k => k.2.2 == e && k.1 == p)).map
        (fun k => groupSum facts k * (-1)) := rfl
  rw [hvals, sum_map_mul_neg_one]
  have hnd : ((profitKeys facts).filter (fun k => k.2.2 == e && k.1 == p)).Nodup :=
    (List.nodup_dedup _).filter _
  have hcov : ∀ x ∈ facts.filter (fun r =>
      r.code0 == "BAS" && r.naamAdministratie == e && r.jaarPeriode == p),
      profitKey x ∈ (profitKeys facts).filter (fun k => k.2.2 == e && k.1 == p) := by
    intro x hx
    obtain ⟨hxf, hxp⟩ := List.mem_filter.mp hx
    simp only [Bool.and_eq_true, beq_iff_eq] at hxp
    apply List.mem_filter.mpr
    refine ⟨mem_profitKeys.mpr ⟨x, hxf, hxp.1.1, rfl⟩, ?_⟩
    simp [profitKey, hxp.1.2, hxp.2]
  have hfib := sum_fiber_eq (fun r : FactRow => r.value) profitKey
    ((profitKeys facts).filter (fun k => k.2.2 == e && k.1 == p))
    (facts.filter (fun r =>
      r.code0 == "BAS" && r.naamAdministratie == e && r.jaarPeriode == p))
    hnd hcov
  have hfibers : ((profitKeys facts).filter (fun k => k.2.2 == e && k.1 == p)).map
      (fun k => (((facts.filter (fun r =>
        r.code0 == "BAS" && r.naamAdministratie == e && r.jaarPeriode == p)).filter
          (fun x => decide (profitKey x = k))).map (fun r => r.value)).sum) =
      ((profitKeys facts).filter (fun k => k.2.2 == e && k.1 == p)).map
        (groupSum facts) := by
    apply List.map_congr_left
    intro k hk
    obtain ⟨hkK, hkq⟩ := List.mem_filter.mp hk
    simp only [Bool.and_eq_true, beq_iff_eq] at hkq
    unfold groupSum balanceRows
    have heq : (facts.filter (fun r =>
        r.code0 == "BAS" && r.naamAdministratie == e && r.jaarPeriode == p)).filter
          (fun x => decide (profitKey x = k)) =
        (facts.filter (fun r => r.code0 == "BAS")).filter
          (fun x => decide (profitKey x = k)) := by
      rw [List.filter_filter, List.filter_filter]
      apply List.filter_congr
      intro r _
      by_cases h : profitKey r = k
      · have h1 : r.jaarPeriode = k.1 := congrArg Prod.fst h
        have h3 : r.naamAdministratie = k.2.2 :=
          congrArg (fun x : String × PyDate × String => x.2.2) h
        simp [h, h1, h3, hkq.1, hkq.2]
      · simp [h]
    rw [heq]
  rw [hfibers] at hfib
  rw [hfib]
  ring

/-- C3 witness: the spec's example headers, including the leap-year pair. -/
theorem claim_C3_witness :
    parse_period_column "februari2024" = Except.ok (some ("2024-02", ⟨2024, 2, 29⟩)) ∧
    parse_period_column "februari2025" = Except.ok (some ("2025-02", ⟨2025, 2, 28⟩)) ∧
    parse_period_column "januari2025" = Except.ok (some ("2025-01", ⟨2025, 1, 31⟩)) ∧
    parse_period_column "Openingsbalans2025" = Except.ok (some ("2025-00", ⟨2025, 1, 1⟩)) ∧
    parse_period_column "RandomColumn" = Except.ok none := by
  refine ⟨?_, ?_, ?_, ?_, ?_⟩
  · rw [(claim_C3_period_parse "februari2024").1 "februari" 2 (by decide) (by decide)
      (by decide) (by decide) (by decide)]
    rfl
  · rw [(claim_C3_period_parse "februari2025").1 "februari" 2 (by decide) (by decide)
      (by decide) (by decide) (by decide)]
    rfl
  · rw [(claim_C3_period_parse "januari2025").1 "januari" 1 (by decide) (by decide)
      (by decide) (by decide) (by decide)]
    rfl
  · rw [(claim_C3_period_parse "Openingsbalans2025").2.1 (by decide) (by decide)
      (by decide) (by decide)]
    rfl
  · exact (claim_C3_period_parse "RandomColumn").2.2 (by decide) (by decide)

end DuckUI5


